import Mathlib

/-!
# Verification of the Carica configuration library core

This file is a shallow embedding, in Lean 4, of the core algorithms of the
Carica configuration library (schema scanner, value serializer, field
deserializer, bad-type policy resolution and the `loadCfg` per-variable
assignment logic), together with theorems settling the specification claims
about them.

Conventions of the embedding:
* Python runtime values are modelled by the inductive type `PyVal`.
  Python `float` payloads are carried as `Int`: no claim exercises
  floating-point arithmetic, only the identity of float values and their
  runtime type, and those are preserved by this carrier.
* Python exceptions are modelled by `Except` results; the structured
  key-traced exceptions of `carica.exceptions` carry their `o` / `depth` /
  `path` data in dedicated error constructors.
* Logging (`carica.carica.log`, which prints) is modelled by returning the
  list of log messages emitted by a call, in order.  A raised exception is
  paired with the logs emitted before the raise.
* Python `isinstance` against the primitive classes is modelled by
  `pyIsInstance`; in particular `bool` is a subclass of `int`, so a `bool`
  value is an instance of `int`.
* The f-string error messages of the source are reproduced by string
  concatenation; `str(cls)` class renderings are abbreviated to the bare
  class name (the quote-decorated `<class ...>` Python form is not
  reproduced character à character, the fields interpolated are the same).
-/

namespace Carica

/-- The seven shallow primitive classes of
`carica.interface.Serializable.primativeTypes = {int, float, str, bool, list, dict, set}`. -/
inductive PrimTy where
  | int
  | float
  | str
  | bool
  | list
  | dict
  | set
deriving Repr

/-- A Python runtime value, restricted to the shapes the Carica core
manipulates: `None`, the scalar primitives, the three iterable collection
kinds it distinguishes (`list`, `tuple`, `set` — a `set` is carried as its
iteration order), string-or-not keyed `dict`s, an object implementing the
`SerializableType` protocol whose `serialize()` returns `payload`, and an
opaque non-serializable object (tagged by a number so distinct objects can
be told apart). -/
inductive PyVal where
  | none
  | bool (b : Bool)
  | int (n : Int)
  | float (f : Int)
  | str (s : String)
  | list (xs : List PyVal)
  | tuple (xs : List PyVal)
  | set (xs : List PyVal)
  | dict (kvs : List (PyVal × PyVal))
  | serObj (payload : PyVal)
  | obj (tag : Nat)
deriving Repr

/-- `type(v).__name__` for the modelled values. -/
def pyTypeName : PyVal → String
  | .none => "NoneType"
  | .bool _ => "bool"
  | .int _ => "int"
  | .float _ => "float"
  | .str _ => "str"
  | .list _ => "list"
  | .tuple _ => "tuple"
  | .set _ => "set"
  | .dict _ => "dict"
  | .serObj _ => "SerializableObject"
  | .obj _ => "object"

/-- `__name__` of a primitive class. -/
def primTyName : PrimTy → String
  | .int => "int"
  | .float => "float"
  | .str => "str"
  | .bool => "bool"
  | .list => "list"
  | .dict => "dict"
  | .set => "set"

/-- Python `isinstance(v, p)` for the primitive classes.  `bool` is a
subclass of `int`, so `isinstance(True, int)` holds; `int` is not a
subclass of `float`. -/
def pyIsInstance (v : PyVal) : PrimTy → Bool
  | .int => match v with | .int _ => true | .bool _ => true | _ => false
  | .float => match v with | .float _ => true | _ => false
  | .str => match v with | .str _ => true | _ => false
  | .bool => match v with | .bool _ => true | _ => false
  | .list => match v with | .list _ => true | _ => false
  | .dict => match v with | .dict _ => true | _ => false
  | .set => match v with | .set _ => true | _ => false

/-- `isinstance(o, SerializableType)`: the runtime-checkable protocol holds
exactly for the modelled implementor objects. -/
def pyIsSerializable : PyVal → Bool
  | .serObj _ => true
  | _ => false

/-- `isinstance(o, Mapping)`. -/
def pyIsMapping : PyVal → Bool
  | .dict _ => true
  | _ => false

/-- `isinstance(o, Iterable) and not isinstance(o, str)` over the modelled
collection values (`str` is excluded exactly as in `_serialize`). -/
def pyIsIterableNotStr : PyVal → Bool
  | .list _ => true
  | .tuple _ => true
  | .set _ => true
  | .dict _ => true
  | _ => false

/-- `carica.typeChecking.objectIsShallowPrimative`:
`isinstance(o, primativeTypesTuple)`. -/
def objectIsShallowPrimative (v : PyVal) : Bool :=
  [PrimTy.int, .float, .str, .bool, .list, .dict, .set].any (pyIsInstance v)

/-! ## Bad-type policy configuration (`carica.carica`) -/

/-- `carica.carica.BadTypeBehaviour`. -/
inductive BadTypeBehaviour where
  | reject
  | keep
  | cast
deriving Repr

/-- `carica.carica.ErrorHandling`. -/
inductive ErrorHandling where
  | raise
  | log
  | ignore
deriving Repr

/-- Python `Enum` equality is identity-based, so comparing a
`BadTypeBehaviour` member against an `ErrorHandling` member is always
`False`, whatever the two members are.  `loadCfg` performs exactly such a
comparison (`badTypeHandling.behaviour == ErrorHandling.LOG`,
carica.py line 487). -/
def enumEqBehaviourErrorHandling (_ : BadTypeBehaviour) (_ : ErrorHandling) : Bool :=
  false

/-- `carica.carica.BadTypeHandling` with its default values. -/
structure BadTypeHandling where
  behaviour : BadTypeBehaviour := .cast
  rejectType : ErrorHandling := .raise
  keepFailedCast : Bool := false
  logTypeKeeping : Bool := true
  logSuccessfulCast : Bool := true
  includeExceptionTrace : Bool := false
deriving Repr

/-- `carica.carica.formatException`: with `includeTrace` the full traceback
is rendered, otherwise `str(e)`.  The traceback text itself is abstracted
to a tagged copy of the exception message. -/
def formatException (e : String) (includeTrace : Bool) : String :=
  if includeTrace then "Traceback: " ++ e else e

/-! ## Python truthiness, casts and `str`/`int` conversions

`BadTypeBehaviour.CAST` calls the declared type's constructor on the
serialized value (`defaultType(newValue)` in `loadCfg`,
`potentialType(serializedValue)` in `_handleTypeCasts`).  `pyCast` models
those constructor calls for the seven primitive classes.  `str(...)` of a
collection is abbreviated to a `<typename>` placeholder: no claim inspects
the text of a str() cast of a collection. -/

/-- Python truthiness, as used by the `bool(x)` constructor. -/
def pyTruthy : PyVal → Bool
  | .none => false
  | .bool b => b
  | .int n => n ≠ 0
  | .float f => f ≠ 0
  | .str s => s ≠ ""
  | .list xs => !xs.isEmpty
  | .tuple xs => !xs.isEmpty
  | .set xs => !xs.isEmpty
  | .dict kvs => !kvs.isEmpty
  | .serObj _ => true
  | .obj _ => true

/-- The value of an ASCII digit character. -/
def digitOfChar (c : Char) : Option Nat :=
  let n := c.toNat
  if 48 ≤ n ∧ n ≤ 57 then some (n - 48) else Option.none

/-- Decimal accumulation over a digit string. -/
def natOfDigitsAux : Nat → List Char → Option Nat
  | acc, [] => some acc
  | acc, c :: rest =>
      match digitOfChar c with
      | some d => natOfDigitsAux (acc * 10 + d) rest
      | Option.none => Option.none

/-- `int(s)` for a string: an optional sign followed by digits parses,
anything else raises `ValueError`.  (Python additionally strips whitespace
and allows underscore separators; no claim exercises those forms.) -/
def pyIntOfString (s : String) : Option Int :=
  match s.data with
  | [] => Option.none
  | '-' :: rest =>
      if rest.isEmpty then Option.none
      else (natOfDigitsAux 0 rest).map (fun n => -(n : Int))
  | '+' :: rest =>
      if rest.isEmpty then Option.none
      else (natOfDigitsAux 0 rest).map (fun n => (n : Int))
  | cs => (natOfDigitsAux 0 cs).map (fun n => (n : Int))

/-- `str(v)`.  Scalars are rendered faithfully; the `repr`-style rendering
of collections is abstracted to a placeholder, and the float rendering to
the decimal rendering of its carrier. -/
def pyStrOf : PyVal → String
  | .str s => s
  | .int n => toString n
  | .bool b => if b then "True" else "False"
  | .none => "None"
  | .float f => toString f
  | v => "<" ++ pyTypeName v ++ ">"

/-- The elements a Python `for` loop sees when iterating `v`, when `v` is
iterable (a `dict` iterates its keys). -/
def pyIterElems : PyVal → Option (List PyVal)
  | .list xs => some xs
  | .tuple xs => some xs
  | .set xs => some xs
  | .dict kvs => some (kvs.map Prod.fst)
  | _ => Option.none

/-- A single iterated element viewed as a key/value pair, as the `dict`
constructor requires of each element of its iterable argument. -/
def pyPairOfElem : PyVal → Option (PyVal × PyVal)
  | .list [a, b] => some (a, b)
  | .tuple [a, b] => some (a, b)
  | _ => Option.none

/-- `dict(iterable)`: every element must be a pair. -/
def pyPairsOf : List PyVal → Option (List (PyVal × PyVal))
  | [] => some []
  | x :: rest =>
      match pyPairOfElem x, pyPairsOf rest with
      | some kv, some kvs => some (kv :: kvs)
      | _, _ => Option.none

/-- `p(v)`: calling the primitive class `p` as a constructor on `v`.
Returns the constructed value or the exception message of the raised
`TypeError`/`ValueError`. -/
def pyCast (p : PrimTy) (v : PyVal) : Except String PyVal :=
  match p with
  | .bool => .ok (.bool (pyTruthy v))
  | .int =>
      match v with
      | .bool b => .ok (.int (if b then 1 else 0))
      | .int n => .ok (.int n)
      | .float f => .ok (.int f)
      | .str s =>
          match pyIntOfString s with
          | some n => .ok (.int n)
          | Option.none => .error ("invalid literal for int() with base 10: " ++ s)
      | _ => .error ("int() argument must be a string, a bytes-like object or a real number, not " ++ pyTypeName v)
  | .float =>
      match v with
      | .bool b => .ok (.float (if b then 1 else 0))
      | .int n => .ok (.float n)
      | .float f => .ok (.float f)
      | .str s =>
          match pyIntOfString s with
          | some n => .ok (.float n)
          | Option.none => .error ("could not convert string to float: " ++ s)
      | _ => .error ("float() argument must be a string or a real number, not " ++ pyTypeName v)
  | .str => .ok (.str (pyStrOf v))
  | .list =>
      match pyIterElems v with
      | some xs => .ok (.list xs)
      | Option.none => .error (pyTypeName v ++ " object is not iterable")
  | .set =>
      match pyIterElems v with
      | some xs => .ok (.set xs)
      | Option.none => .error (pyTypeName v ++ " object is not iterable")
  | .dict =>
      match v with
      | .dict kvs => .ok (.dict kvs)
      | _ =>
          match pyIterElems v with
          | some xs =>
              match pyPairsOf xs with
              | some kvs => .ok (.dict kvs)
              | Option.none => .error "cannot convert dictionary update sequence element"
          | Option.none => .error (pyTypeName v ++ " object is not iterable")

/-! ## The serializer `carica.carica._serialize` -/

/-- The exceptions `_serialize` can raise: `RecursionError()` (bare), and
the three `KeyTracedException` subclasses, carrying the erroneous object
`o`, the explicitly passed `depth` argument and the key trace `path`
exactly as the corresponding `raise` statement passes them. -/
inductive SErr where
  | recursionError
  | nonStringMappingKey (o : PyVal) (depth : Int) (path : List PyVal)
  | multiTypeList (o : PyVal) (depth : Int) (path : List PyVal)
  | nonSerializableObject (o : PyVal) (depth : Int) (path : List PyVal)
deriving Repr

/-- Is a serialized element a table (`isinstance(i, Mapping)`)? -/
def isDictVal : PyVal → Bool
  | .dict _ => true
  | _ => false

/-- The mixed-content test of `_serialize` on an already-serialized list:
`(isinstance(l[0], Mapping) and any(not isinstance(i, Mapping) for i in l[1:]))
or (not isinstance(l[0], Mapping) and any(isinstance(i, Mapping) for i in l[1:]))`. -/
def multiTypeCheck : List PyVal → Bool
  | [] => false
  | x :: rest =>
      if isDictVal x then rest.any (fun i => !isDictVal i)
      else rest.any isDictVal

/-- The post-loop homogeneity enforcement of the iterable branch of
`_serialize`, producing the serialized list or `MultiTypeList`. -/
def finishIterable (o : PyVal) (path : List PyVal) (elems : List PyVal) :
    Except SErr PyVal :=
  if elems.length > 1 ∧ multiTypeCheck elems then
    .error (.multiTypeList o ((path.length : Int) - 1) path)
  else
    .ok (.list elems)

mutual

/-- `carica.carica._serialize(o, path, depthLimit)`.  Dispatch order, as in
the source: depth check, `SerializableType`, `Mapping`, iterable-not-str,
shallow primitive, `NonSerializableObject`.  The mapping branch appends
the string key to the path; the iterable branch appends the element
itself (`path + [i]` where `i` ranges over the elements). -/
def pySerialize (o : PyVal) (path : List PyVal) (depthLimit : Nat) :
    Except SErr PyVal :=
  if path.length > depthLimit then .error .recursionError
  else
    match o with
    | .serObj payload =>
        pySerialize payload (path ++ [.str "[serialize]"]) depthLimit
    | .dict kvs =>
        match pySerializeKVs kvs path depthLimit with
        | .error e => .error e
        | .ok out => .ok (.dict out)
    | .list xs =>
        match pySerializeElems xs path depthLimit with
        | .error e => .error e
        | .ok elems => finishIterable (.list xs) path elems
    | .tuple xs =>
        match pySerializeElems xs path depthLimit with
        | .error e => .error e
        | .ok elems => finishIterable (.tuple xs) path elems
    | .set xs =>
        match pySerializeElems xs path depthLimit with
        | .error e => .error e
        | .ok elems => finishIterable (.set xs) path elems
    | .bool b => .ok (.bool b)
    | .int n => .ok (.int n)
    | .float f => .ok (.float f)
    | .str s => .ok (.str s)
    | .none => .error (.nonSerializableObject .none ((path.length : Int) - 1) path)
    | .obj t => .error (.nonSerializableObject (.obj t) ((path.length : Int) - 1) path)

/-- The element loop of the iterable branch: each element is serialized
with itself appended to the path, left to right, the first exception
propagating. -/
def pySerializeElems (xs : List PyVal) (path : List PyVal) (depthLimit : Nat) :
    Except SErr (List PyVal) :=
  match xs with
  | [] => .ok []
  | x :: rest =>
      match pySerialize x (path ++ [x]) depthLimit with
      | .error e => .error e
      | .ok s =>
          match pySerializeElems rest path depthLimit with
          | .error e => .error e
          | .ok out => .ok (s :: out)

/-- The entry loop of the mapping branch: each key must be a `str`
(else `NonStringMappingKey(k, len(path)-1, path)`), each value is
serialized with the key appended to the path. -/
def pySerializeKVs (kvs : List (PyVal × PyVal)) (path : List PyVal)
    (depthLimit : Nat) : Except SErr (List (PyVal × PyVal)) :=
  match kvs with
  | [] => .ok []
  | (k, v) :: rest =>
      match k with
      | .str s =>
          match pySerialize v (path ++ [.str s]) depthLimit with
          | .error e => .error e
          | .ok sv =>
              match pySerializeKVs rest path depthLimit with
              | .error e => .error e
              | .ok out => .ok ((.str s, sv) :: out)
      | _ => .error (.nonStringMappingKey k ((path.length : Int) - 1) path)

end

/-! ## Type hints and the field deserializer
(`carica.models.dataclasses._deserializeField` / `_handleTypeCasts`)

`THint` models the `fieldType` argument domain
`Union[type, _BaseGenericAlias, TypeVar, _MISSING_TYPE]`: `typing.Any` (or
`object`), `type(None)`, the `Ellipsis` object (as it occurs inside
`Tuple[X, ...]` parameters), parameterised `Union`s, the seven concrete
primitive classes, any other concrete class that is neither a
`SerializableType` implementor nor a primitive subclass (e.g. `tuple`),
`TypeVar`s, `dataclasses.MISSING`, and the generic aliases with `dict`
resp. `list`/`set`/`tuple` origins carrying their parameter lists.
A concrete `SerializableType` implementor class in field position
(`serialCls`, the class of the `serObj` values) delegates to that class's
own `deserialize` (dataclasses.py lines 179–183); the repository's
implementor `SerializableDataClass` is additionally modelled separately
by `deserializeDC`. -/

/-- The origin kinds of the shared `List`/`Set`/`Tuple` generic branch. -/
inductive CollKind where
  | list
  | set
  | tuple
deriving DecidableEq, Repr

/-- The modelled type-hint domain of `_deserializeField`.  `serialCls` is
the class of the `serObj` implementor values: a concrete class for which
`issubclass(fieldType, SerializableType)` holds, so the deserializer
delegates to the class's own `deserialize`.  That `deserialize` is the
implementor's own code, outside this repository's core; it is modelled
from the spec: the SerializableContract requires a reciprocal
`deserialize(PrimitiveValue, opts) -> Self`, so the class of the
`serObj payload` values (whose `serialize()` returns `payload`)
deserializes `data` back to `serObj data` — exactly the shape of the
repository's own implementors, e.g. `SerializablePath`
(`serialize = str(self)`, `deserialize = cls(data)`). -/
inductive THint where
  | any
  | noneType
  | ellipsisH
  | union (args : List THint)
  | prim (p : PrimTy)
  | serialCls
  | otherCls (name : String)
  | tyVar (name : String)
  | missing
  | genDict (args : List THint)
  | genColl (kind : CollKind) (args : List THint)
deriving Repr

/-- `str(t)` of a type hint, as interpolated into error messages.  Nested
parameter lists are abbreviated: no claim inspects the rendering of a
parameterised hint. -/
def thintStr : THint → String
  | .any => "typing.Any"
  | .noneType => "NoneType"
  | .ellipsisH => "Ellipsis"
  | .union _ => "typing.Union[...]"
  | .prim p => primTyName p
  | .serialCls => "SerObj"
  | .otherCls n => n
  | .tyVar n => "~" ++ n
  | .missing => "MISSING"
  | .genDict _ => "typing.Dict[...]"
  | .genColl .list _ => "typing.List[...]"
  | .genColl .set _ => "typing.Set[...]"
  | .genColl .tuple _ => "typing.Tuple[...]"

/-- `genericType is type(None)`. -/
def isNoneTypeH : THint → Bool
  | .noneType => true
  | _ => false

/-- `genericArgs[1] is Ellipsis`. -/
def isEllipsisH : THint → Bool
  | .ellipsisH => true
  | _ => false

/-- `serializedValue is None`. -/
def isNoneVal : PyVal → Bool
  | .none => true
  | _ => false

/-- `isinstance(h, type)`: which modelled hints are concrete classes.
(`typing.Any` is not a class before Python 3.11, the era of this
library; `TypeVar`s, `MISSING` and `Ellipsis` are instances, not
classes.) -/
def hintIsConcreteClass : THint → Bool
  | .prim _ => true
  | .serialCls => true
  | .otherCls _ => true
  | .noneType => true
  | _ => false

/-- `issubclass(h, str)` for the modelled concrete classes. -/
def hintIsStrSubclass : THint → Bool
  | .prim .str => true
  | _ => false

/-- The exceptions the deserializer raises: `TypeError`s carrying their
message, the two forms of `exceptions.NonStringMappingKey` it constructs
(one with a type hint as the erroneous object, one with a mapping key),
`KeyError` from a field-table lookup, and `IndexError` from reading a
missing generic parameter. -/
inductive PyErr where
  | typeError (msg : String)
  | nonStringMappingKeyH (hint : THint) (depth : Int) (path : List PyVal) (extra : String)
  | nonStringMappingKeyV (o : PyVal) (depth : Int) (path : List PyVal)
  | keyError (k : String)
  | indexError
deriving Repr

/-- A deserializer call result: the returned value or raised exception,
paired with the log lines the call printed, in order. -/
abbrev DRes := Except PyErr PyVal × List String

/-- `'/'.join(...)`. -/
def slashJoin (xs : List String) : String :=
  String.intercalate "/" xs

/-- `f"Field {fieldName} is a generic type but has not been parameterised"`. -/
def notParameterisedMsg (fieldName : String) : String :=
  "Field " ++ fieldName ++ " is a generic type but has not been parameterised"

/-- `f"Field {fieldName} is typed as a non-serializable type: {fieldType}"`
(the unconditional raise terminating `_deserializeField`). -/
def nonSerializableTypeMsg (fieldName : String) (fieldType : THint) : String :=
  "Field " ++ fieldName ++ " is typed as a non-serializable type: " ++ thintStr fieldType

/-- The mismatch message shared by `_handleTypeCasts` and the Union branch:
`f"Expected one of {'/'.join(str(t) for t in possibleTypes)} for field
{fieldName}, but received serialized type {type(serializedValue).__name__}"`. -/
def expectedOneOfMsg (types : List String) (fieldName : String) (v : PyVal) : String :=
  "Expected one of " ++ slashJoin types ++ " for field " ++ fieldName ++
    ", but received serialized type " ++ pyTypeName v

/-- The cast loop of `_handleTypeCasts` (`for potentialType in
possibleTypes`): first successful constructor call wins, carrying its
success log; otherwise the last constructor exception is reported.  The
`UNCASTABLE_TYPES` and `TypeVar` skips of the source never fire for the
concrete primitive classes this loop receives from its only call site. -/
def castLoop (fieldName : String) (v : PyVal) (pol : BadTypeHandling) (noLog : Bool) :
    List PrimTy → Option (PyVal × List String) × Option String
  | [] => (Option.none, Option.none)
  | p :: rest =>
      match pyCast p v with
      | .error e =>
          match castLoop fieldName v pol noLog rest with
          | (res, exc) => (res, some (exc.getD e))
      | .ok newValue =>
          (some (newValue,
            if !noLog && pol.logSuccessfulCast then
              ["[WARNING] Successfully casted unexpected type for field " ++ fieldName ++
                " from type " ++ pyTypeName v ++ " to " ++ pyTypeName newValue]
            else []), Option.none)

/-- `carica.models.dataclasses._handleTypeCasts`.  Note the branches of the
source that end without a `return` statement (CAST with a failed cast and
`rejectType` LOG/IGNORE, REJECT with LOG/IGNORE): Python then returns
`None`, which this model renders as `.ok PyVal.none`. -/
def handleTypeCasts (serializedValue : PyVal) (fieldName : String)
    (possibleTypes : List PrimTy) (pol : BadTypeHandling) (noLog : Bool) : DRes :=
  if possibleTypes.any (pyIsInstance serializedValue) then
    (.ok serializedValue, [])
  else
    let fieldTypeError0 := expectedOneOfMsg (possibleTypes.map primTyName) fieldName serializedValue
    match pol.behaviour with
    | .cast =>
        match castLoop fieldName serializedValue pol noLog possibleTypes with
        | (some (newValue, logs), _) => (.ok newValue, logs)
        | (Option.none, lastExc) =>
            let fieldTypeError :=
              match lastExc with
              | some e =>
                  if pol.includeExceptionTrace && possibleTypes.length == 1 then
                    fieldTypeError0 ++ ". Exception: " ++ formatException e true
                  else fieldTypeError0
              | Option.none => fieldTypeError0
            if pol.keepFailedCast then
              (.ok serializedValue,
                if !noLog && pol.logTypeKeeping then
                  ["[WARNING] Keeping original value for mistyped field following failed cast. " ++ fieldTypeError]
                else [])
            else
              let errMsg := "Casting failed for unexpected type. " ++ fieldTypeError
              match pol.rejectType with
              | .raise => (.error (.typeError errMsg), [])
              | .log => (.ok PyVal.none, if !noLog then ["[WARNING] " ++ errMsg] else [])
              | .ignore => (.ok PyVal.none, [])
    | .keep =>
        (.ok serializedValue,
          if !noLog && pol.logTypeKeeping then
            ["[WARNING] Keeping mistyped field value: " ++ fieldTypeError0]
          else [])
    | .reject =>
        match pol.rejectType with
        | .raise => (.error (.typeError fieldTypeError0), [])
        | .log => (.ok PyVal.none, if !noLog then [fieldTypeError0] else [])
        | .ignore => (.ok PyVal.none, [])

/-- The entry loop of the `Dict` generic branch: each value is deserialized
against the value parameter with the key appended to the trace, the dict
being rebuilt with the original keys. -/
def dictRun (fv : PyVal → List PyVal → DRes) (trace : List PyVal) :
    List (PyVal × PyVal) → Except PyErr (List (PyVal × PyVal)) × List String
  | [] => (.ok [], [])
  | (k, v) :: rest =>
      match fv v (trace ++ [k]) with
      | (.error e, logs) => (.error e, logs)
      | (.ok v2, logs) =>
          match dictRun fv trace rest with
          | (.error e, logs2) => (.error e, logs ++ logs2)
          | (.ok out, logs2) => (.ok ((k, v2) :: out), logs ++ logs2)

/-- The element loop of the `List`/`Set`/`Tuple` generic branch
(`for i, v in enumerate(serializedValue)`), appending the enumeration
index to the trace. -/
def collRun (fv : PyVal → List PyVal → DRes) (trace : List PyVal) (idx : Nat) :
    List PyVal → Except PyErr (List PyVal) × List String
  | [] => (.ok [], [])
  | x :: rest =>
      match fv x (trace ++ [.int idx]) with
      | (.error e, logs) => (.error e, logs)
      | (.ok x2, logs) =>
          match collRun fv trace (idx + 1) rest with
          | (.error e, logs2) => (.error e, logs ++ logs2)
          | (.ok out, logs2) => (.ok (x2 :: out), logs ++ logs2)

/-- The elements seen by `isinstance(serializedValue, (List, Set, Tuple))`
followed by iteration, when the check passes. -/
def collElemsOf : PyVal → Option (List PyVal)
  | .list xs => some xs
  | .set xs => some xs
  | .tuple xs => some xs
  | _ => Option.none

/-- The `len(genericArgs) > 1 and genericArgs[1] is not Ellipsis` check on
the parameters after the first. -/
def multiSlot : List THint → Bool
  | [] => false
  | second :: _ => !isEllipsisH second

/-- `hintedTypes[generic](builder)`: reassembly into the origin container
kind.  (Python `set(...)` additionally deduplicates; sets are carried as
their iteration order here and no claim builds a set with duplicates.) -/
def rebuildColl (kind : CollKind) (out : List PyVal) : PyVal :=
  match kind with
  | .list => .list out
  | .set => .set out
  | .tuple => .tuple out

mutual

/-- `carica.models.dataclasses._deserializeField(fieldName, fieldType,
serializedValue, c_variableTrace, c_badTypeHandling, _noLog,
deserializeSerializable)`.

Branch order as in the source: `Any`/`object` pass-through; `Union`
(null shortcut, member probing, keep/reject fallthrough — note that the
LOG and IGNORE reject arms fall out of the `elif` chain and reach the
final unconditional `raise TypeError(...)` of the function); concrete
types (primitive subclasses: `isinstance` match enters
`_handleTypeCasts`, mismatch raises immediately); `Dict` generics;
`List`/`Set`/`Tuple` generics; everything else reaches the final raise.

The recursive calls of the dict and collection branches do not forward
`_noLog` (the source omits the argument, so it defaults to `False`), and
the Union probe resp. re-run pass `_noLog=True` resp. the default
`False`, also independently of the caller's `_noLog`. -/
def deserializeField (fieldName : String) (fieldType : THint) (serializedValue : PyVal)
    (trace : List PyVal) (pol : BadTypeHandling) (noLog : Bool) (dS : Bool) : DRes :=
  match fieldType with
  | .any => (.ok serializedValue, [])
  | .union args =>
      match args with
      | [] => (.error (.typeError (notParameterisedMsg fieldName)), [])
      | _ :: _ =>
          let optional := args.any isNoneTypeH
          if optional && isNoneVal serializedValue then (.ok PyVal.none, [])
          else
            match unionLoop fieldName args serializedValue trace pol dS with
            | (some r, logs) => (r, logs)
            | (Option.none, logs) =>
                let fieldTypeError := expectedOneOfMsg (args.map thintStr) fieldName serializedValue
                match pol.behaviour with
                | .keep =>
                    (.ok serializedValue,
                      logs ++ (if !noLog && pol.logTypeKeeping then
                        ["[WARNING] Keeping mistyped field value: " ++ fieldTypeError] else []))
                | _ =>
                    match pol.rejectType with
                    | .raise => (.error (.typeError fieldTypeError), logs)
                    | .log =>
                        (.error (.typeError (nonSerializableTypeMsg fieldName (.union args))),
                          logs ++ (if !noLog then [fieldTypeError] else []))
                    | .ignore =>
                        (.error (.typeError (nonSerializableTypeMsg fieldName (.union args))), logs)
  | .serialCls =>
      -- `issubclass(fieldType, SerializableType)` (dataclasses.py:179-183):
      -- delegate to the class's own deserialize when
      -- `deserializeSerializable`, else return the value untouched
      if dS then (.ok (.serObj serializedValue), [])
      else (.ok serializedValue, [])
  | .prim p =>
      if pyIsInstance serializedValue p then
        handleTypeCasts serializedValue fieldName [p] pol false
      else
        (.error (.typeError ("Expected type of " ++ primTyName p ++ " for field " ++ fieldName ++
          ", but received serialized type " ++ pyTypeName serializedValue)), [])
  | .genDict args =>
      match serializedValue with
      | .dict kvs =>
          match args with
          | [] => (.error (.typeError (notParameterisedMsg fieldName)), [])
          | kT :: restArgs =>
              if hintIsConcreteClass kT && !hintIsStrSubclass kT then
                (.error (.nonStringMappingKeyH (.genDict args) (trace.length : Int) trace
                  ("Field " ++ fieldName ++ " is typed as a dict with non-str keys")), [])
              else
                match restArgs with
                | vT :: _ =>
                    let fv := fun v2 tr2 => deserializeField fieldName vT v2 tr2 pol false dS
                    match dictRun fv trace kvs with
                    | (.error e, logs) => (.error e, logs)
                    | (.ok out, logs) => (.ok (.dict out), logs)
                | [] =>
                    match kvs with
                    | [] => (.ok (.dict []), [])
                    | _ => (.error .indexError, [])
      | _ =>
          (.error (.typeError ("Received serialized value for field " ++ fieldName ++
            " of type " ++ pyTypeName serializedValue ++ ", but expected dict")), [])
  | .genColl kind args =>
      match collElemsOf serializedValue with
      | Option.none =>
          (.error (.typeError ("Expected type of " ++ thintStr (.genColl kind args) ++
            " for field " ++ fieldName ++ ", but received serialized type " ++
            pyTypeName serializedValue)), [])
      | some xs =>
          match args with
          | [] => (.error (.typeError (notParameterisedMsg fieldName)), [])
          | elemT :: restArgs =>
              if multiSlot restArgs then
                (.error (.typeError ("Field " ++ fieldName ++
                  " is typed as a tuple with multiple type slots. " ++
                  "Tuples must be parameterised with a single type, or a type followed by ...")), [])
              else
                let fv := fun v2 tr2 => deserializeField fieldName elemT v2 tr2 pol false dS
                match collRun fv trace 0 xs with
                | (.error e, logs) => (.error e, logs)
                | (.ok out, logs) => (.ok (rebuildColl kind out), logs)
  | .otherCls n =>
      (.error (.typeError (nonSerializableTypeMsg fieldName (.otherCls n))), [])
  | .noneType =>
      (.error (.typeError (nonSerializableTypeMsg fieldName .noneType)), [])
  | .tyVar n =>
      (.error (.typeError (nonSerializableTypeMsg fieldName (.tyVar n))), [])
  | .missing =>
      (.error (.typeError (nonSerializableTypeMsg fieldName .missing)), [])
  | .ellipsisH =>
      (.error (.typeError (nonSerializableTypeMsg fieldName .ellipsisH)), [])

/-- The member loop of the Union branch: skip `type(None)` members, probe
each member with `_noLog=True` (`try/except: pass`), and on the first
silently succeeding member return the result of re-running it with
logging enabled.  `none` means the loop ran out of members; the log list
carries everything printed by the probes and the re-run. -/
def unionLoop (fieldName : String) (hs : List THint) (serializedValue : PyVal)
    (trace : List PyVal) (pol : BadTypeHandling) (dS : Bool) :
    Option (Except PyErr PyVal) × List String :=
  match hs with
  | [] => (Option.none, [])
  | g :: rest =>
      if isNoneTypeH g then unionLoop fieldName rest serializedValue trace pol dS
      else
        match deserializeField fieldName g serializedValue trace pol true dS with
        | (.error _, probeLogs) =>
            match unionLoop fieldName rest serializedValue trace pol dS with
            | (r, logs) => (r, probeLogs ++ logs)
        | (.ok _, probeLogs) =>
            match deserializeField fieldName g serializedValue trace pol false dS with
            | (r, logs) => (some r, probeLogs ++ logs)

end

/-! ## `SerializableDataClass.deserialize` (`carica.models.dataclasses`)

A `SerializableDataClass` subclass is modelled by its name and the list of
its fields with their (override-aware) type hints, in declaration order.
`deserialize` iterates the serialized mapping, overwriting each entry of
its `data` argument in place with the deserialized field value, then calls
the dataclass constructor with the mutated mapping as keyword arguments.
The model therefore returns, besides the constructed object (its field
assignments) or the raised exception, the state of the `data` argument
after the call, and the logs printed. -/

/-- Does the (string-keyed) entry list carry key `n`? -/
def kvsHasStrKey (kvs : List (PyVal × PyVal)) (n : String) : Bool :=
  kvs.any (fun kv =>
    match kv.1 with
    | .str s => s == n
    | _ => false)

/-- The value under string key `n` (guarded by `kvsHasStrKey` at use
sites). -/
def kvsGetStr (kvs : List (PyVal × PyVal)) (n : String) : PyVal :=
  match kvs with
  | [] => PyVal.none
  | (k, v) :: rest =>
      match k with
      | .str s => if s == n then v else kvsGetStr rest n
      | _ => kvsGetStr rest n

/-- The `for k, v in data.items()` loop of `deserialize`: reject non-`str`
keys (`NonStringMappingKey(k, path=c_variableTrace)`, whose `__init__`
turns the omitted depth into `len(path)`), look the key up in the field
table (a missing field raises `KeyError`), deserialize, and assign the
result back to `data[k]`.  Returns the exception if one was raised, the
state of the entry list after the loop (entries at and after a raising
entry keep their original values), and the logs. -/
def dcLoop (flds : List (String × THint)) (trace : List PyVal) (pol : BadTypeHandling)
    (dV : Bool) : List (PyVal × PyVal) →
    Option PyErr × List (PyVal × PyVal) × List String
  | [] => (Option.none, [], [])
  | (k, v) :: rest =>
      match k with
      | .str s =>
          match flds.lookup s with
          | Option.none => (some (.keyError s), (k, v) :: rest, [])
          | some ft =>
              match deserializeField s ft v (trace ++ [.str s]) pol false dV with
              | (.error e, logs) => (some e, (k, v) :: rest, logs)
              | (.ok v2, logs) =>
                  match dcLoop flds trace pol dV rest with
                  | (err, finalRest, logs2) => (err, (.str s, v2) :: finalRest, logs ++ logs2)
      | _ => (some (.nonStringMappingKeyV k (trace.length : Int) trace), (k, v) :: rest, [])

/-- `SerializableDataClass.deserialize(data, deserializeValues,
c_variableTrace, c_badTypeHandling)` for the class `clsName` with field
table `flds`.  The first component is the constructed object (the field
assignments `cls(**data)` makes, in field order) or the raised exception;
the second is the `data` argument as the caller observes it after the
call; the third the emitted logs.  The Python `TypeError` message for a
missing constructor argument is abbreviated. -/
def deserializeDC (clsName : String) (flds : List (String × THint)) (data : PyVal)
    (deserializeValues : Bool) (trace : List PyVal) (pol : BadTypeHandling) :
    Except PyErr (List (String × PyVal)) × PyVal × List String :=
  match data with
  | .dict kvs =>
      match dcLoop flds trace pol deserializeValues kvs with
      | (some e, finalKvs, logs) => (.error e, .dict finalKvs, logs)
      | (Option.none, finalKvs, logs) =>
          if flds.all (fun f => kvsHasStrKey finalKvs f.1) then
            (.ok (flds.map (fun f => (f.1, kvsGetStr finalKvs f.1))), .dict finalKvs, logs)
          else
            (.error (.typeError ("__init__ missing required argument for " ++ clsName)),
              .dict finalKvs, logs)
  | _ =>
      (.error (.typeError ("Invalid serialized " ++ clsName ++
        ". Expected Dict[str, PrimativeType], received " ++ pyTypeName data)), data, [])

/-! ## The schema scanner (`carica.carica._partialModuleVariables`)

The scanner is modelled as a fold over the token stream of the schema
source (`tokenize` tokens, reduced to their type and string), with the
runtime module lookup `getattr(module, name)` abstracted as a partial map
`g : String → Option PyVal` (`none` models `AttributeError`).  The fold
state mirrors the four loop variables of the source; the fold aborts with
`ScanErr.attributeError` exactly where the source lets an exception
escape. -/

/-- The token types the scanner distinguishes. -/
inductive TokTy where
  | NAME
  | OP
  | NUMBER
  | STRING
  | COMMENT
  | NL
  | NEWLINE
  | ENDMARKER
  | INDENT
  | DEDENT
deriving DecidableEq, Repr

/-- A lexical token: its type and its text. -/
structure Tok where
  ty : TokTy
  str : String
deriving DecidableEq, Repr

/-- `carica.carica.tokenDisallowed`: `INDENT` tokens, and the `NAME`
tokens `from` and `import`, cannot start a variable assignment line. -/
def tokenDisallowed (t : Tok) : Bool :=
  t.ty == .INDENT || (t.ty == .NAME && (t.str == "from" || t.str == "import"))

/-- `carica.carica.lineStartsWithVariableIdentifier`: more than one token,
the first a `NAME`, the second the operator `=`. -/
def lineStartsWithVariableIdentifier (line : List Tok) : Bool :=
  match line with
  | t0 :: t1 :: _ => t0.ty == .NAME && t1.ty == .OP && t1.str == "="
  | _ => false

/-- `carica.carica.ConfigVariable`.  `loadedType` is recorded as the name
of the value's runtime type (`TypeOverride` proxies are not modelled by
the scanner embedding; no claim scans an overridden variable). -/
structure ConfigVariable where
  name : String
  value : PyVal
  inlineComments : List String
  preComments : List String
  loadedType : String
deriving Repr

/-- `token.string.lstrip("# ")`. -/
def lstripHashSpace (s : String) : String :=
  String.mk (s.data.dropWhile (fun c => c == '#' || c == ' '))

/-- Ordered-dict membership test on the variable table. -/
def varsContains (vs : List (String × ConfigVariable)) (n : String) : Bool :=
  vs.any (fun p => p.1 == n)

/-- `moduleVariables[n].preComments += cs`. -/
def varsAppendPre (vs : List (String × ConfigVariable)) (n : String) (cs : List String) :
    List (String × ConfigVariable) :=
  vs.map (fun p =>
    if p.1 == n then (p.1, { p.2 with preComments := p.2.preComments ++ cs }) else p)

/-- `moduleVariables[n].inlineComments.append(c)`. -/
def varsAppendInline (vs : List (String × ConfigVariable)) (n : String) (c : String) :
    List (String × ConfigVariable) :=
  vs.map (fun p =>
    if p.1 == n then (p.1, { p.2 with inlineComments := p.2.inlineComments ++ [c] }) else p)

/-- The exception `_partialModuleVariables` can let escape: the
`AttributeError` of the unguarded `getattr` in the inline-comment branch. -/
inductive ScanErr where
  | attributeError (name : String)
deriving DecidableEq, Repr

/-- The loop state of `_partialModuleVariables`. -/
structure ScanSt where
  vars : List (String × ConfigVariable)
  currentLine : List Tok
  commentsQueue : List String
  ignoreLine : Bool

/-- One iteration of the token loop of `_partialModuleVariables`. -/
def scanStep (g : String → Option PyVal) (st : ScanSt) (t : Tok) : Except ScanErr ScanSt :=
  if st.ignoreLine then
    if t.ty == .NEWLINE then .ok { st with ignoreLine := false } else .ok st
  else if st.currentLine.isEmpty && tokenDisallowed t then
    .ok { st with ignoreLine := t.ty != .NEWLINE, commentsQueue := [] }
  else if t.ty == .NL || t.ty == .NEWLINE || t.ty == .ENDMARKER then
    match st.currentLine with
    | [] => .ok { st with commentsQueue := [] }
    | t0 :: _ =>
        if t0.ty != .COMMENT then
          if lineStartsWithVariableIdentifier st.currentLine then
            let n := t0.str
            if varsContains st.vars n then
              .ok { st with vars := varsAppendPre st.vars n st.commentsQueue,
                            commentsQueue := [], currentLine := [] }
            else
              match g n with
              | Option.none =>
                  -- the caught AttributeError: clear the queue, drop the line
                  .ok { st with commentsQueue := [], currentLine := [] }
              | some v =>
                  let nv := (n, ConfigVariable.mk n v [] [] (pyTypeName v))
                  .ok { st with vars := varsAppendPre (st.vars ++ [nv]) n st.commentsQueue,
                                commentsQueue := [], currentLine := [] }
          else
            .ok { st with commentsQueue := [], currentLine := [] }
        else
          .ok { st with currentLine := [] }
  else if t.ty == .COMMENT then
    match st.currentLine with
    | [] =>
        .ok { st with commentsQueue := st.commentsQueue ++ [lstripHashSpace t.str],
                      currentLine := st.currentLine ++ [t] }
    | _ :: _ =>
        if lineStartsWithVariableIdentifier st.currentLine then
          let n := (st.currentLine.headD t).str
          if varsContains st.vars n then
            .ok { st with vars := varsAppendInline st.vars n (lstripHashSpace t.str) }
          else
            match g n with
            | Option.none => .error (.attributeError n)
            | some v =>
                let nv := (n, ConfigVariable.mk n v [] [] (pyTypeName v))
                .ok { st with vars := varsAppendInline (st.vars ++ [nv]) n (lstripHashSpace t.str) }
        else
          .ok st
  else if t.ty == .DEDENT then
    .ok st
  else
    .ok { st with currentLine := st.currentLine ++ [t] }

/-- The token loop, folded over the whole stream. -/
def scanFold (g : String → Option PyVal) : ScanSt → List Tok → Except ScanErr ScanSt
  | st, [] => .ok st
  | st, t :: rest =>
      match scanStep g st t with
      | .error e => .error e
      | .ok st2 => scanFold g st2 rest

/-- `carica.carica._partialModuleVariables`, from the token stream of the
module source and the module's attribute lookup. -/
def scanTokens (ts : List Tok) (g : String → Option PyVal) :
    Except ScanErr (List (String × ConfigVariable)) :=
  match scanFold g (ScanSt.mk [] [] [] false) ts with
  | .error e => .error e
  | .ok st => .ok st.vars

/-! ## The per-variable assignment of `carica.carica.loadCfg`

For a document variable whose name is known to the schema and whose
schema default has a concrete primitive runtime type, `loadCfg` checks
`isinstance(newValue, defaultType)` and on a mismatch runs the bad-type
policy of lines 478–541, then (unless an exception was raised) assigns
the resulting value to the module attribute.  The model returns the
assigned value or the raised `TypeError`, with the logs.  The branches
for `SerializableType` and non-class (generic) default types are outside
every claim and are not modelled. -/

/-- One variable assignment of `loadCfg` (carica.py lines 459–544) for a
concrete primitive `defaultType`. -/
def loadCfgVar (varName : String) (defaultType : PrimTy) (newValue : PyVal)
    (pol : BadTypeHandling) : Except PyErr PyVal × List String :=
  if pyIsInstance newValue defaultType then (.ok newValue, [])
  else
    match pol.behaviour with
    | .reject =>
        let errMsg := "Unexpected type for config variable " ++ varName ++ ": Expected " ++
          primTyName defaultType ++ ", received " ++ pyTypeName newValue
        match pol.rejectType with
        | .raise => (.error (.typeError errMsg), [])
        | _ =>
            -- `elif badTypeHandling.behaviour == ErrorHandling.LOG:` — a
            -- cross-enum comparison, never true
            if enumEqBehaviourErrorHandling pol.behaviour ErrorHandling.log then
              (.ok newValue, ["[WARNING] " ++ errMsg])
            else
              (.ok newValue, [])
    | .cast =>
        -- `isinstance(defaultType, type)` holds for the primitive classes
        match pyCast defaultType newValue with
        | .error e =>
            if pol.keepFailedCast then
              (.ok newValue,
                if pol.logTypeKeeping then
                  ["[WARNING] Keeping original value for mistype variable " ++ varName ++
                    ", following failed cast. Expected " ++ primTyName defaultType ++
                    ", received " ++ pyTypeName newValue ++ ", cast exception: " ++
                    formatException e pol.includeExceptionTrace]
                else [])
            else
              let errMsg := "Casting failed for unexpected type for config variable " ++
                varName ++ ": Expected " ++ primTyName defaultType ++ ", received " ++
                pyTypeName newValue ++ ". Cast exception: " ++
                formatException e pol.includeExceptionTrace
              match pol.rejectType with
              | .raise => (.error (.typeError errMsg), [])
              | .log => (.ok newValue, ["[WARNING] " ++ errMsg])
              | .ignore => (.ok newValue, [])
        | .ok casted =>
            -- the success log interpolates `type(newValue).__name__` after
            -- `newValue` was already reassigned to the cast result
            (.ok casted,
              if pol.logSuccessfulCast && pyTypeName casted != primTyName defaultType then
                ["[WARNING] Successfully casted unexpected type for config variable " ++
                  varName ++ " from type " ++ pyTypeName casted ++ " to " ++
                  primTyName defaultType]
              else [])
    | .keep =>
        (.ok newValue,
          if pol.logTypeKeeping then
            ["[WARNING] Keeping original value for mistype variable " ++ varName ++
              ". Expected " ++ primTyName defaultType ++ ", received " ++ pyTypeName newValue]
          else [])

/-! ## Auxiliary definitions for the claims -/

/-- `type(v)` as a deserialization type hint: the concrete runtime class of
a value, as the scanner records it for a schema default
(`loadedType = type(variableValue)`). -/
def typeOfRT : PyVal → THint
  | .bool _ => .prim .bool
  | .int _ => .prim .int
  | .float _ => .prim .float
  | .str _ => .prim .str
  | .list _ => .prim .list
  | .dict _ => .prim .dict
  | .set _ => .prim .set
  | .tuple _ => .otherCls "tuple"
  | .none => .noneType
  | .serObj _ => .serialCls
  | .obj _ => .otherCls "object"

/-- The `len > 1` guard and mixed-content test of `finishIterable`,
as one boolean. -/
def multiTypeLong (xs : List PyVal) : Bool :=
  match xs with
  | _ :: _ :: _ => multiTypeCheck xs
  | _ => false

mutual

/-- The round-trippable values: scalar primitives, and lists / string-keyed
dicts of round-trippable values in which no list with more than one
element mixes dict and non-dict members. -/
def rtVal : PyVal → Bool
  | .bool _ => true
  | .int _ => true
  | .float _ => true
  | .str _ => true
  | .list xs => rtList xs && !multiTypeLong xs
  | .dict kvs => rtKVs kvs
  | _ => false

/-- All elements round-trippable. -/
def rtList : List PyVal → Bool
  | [] => true
  | x :: rest => rtVal x && rtList rest

/-- All keys strings, all values round-trippable. -/
def rtKVs : List (PyVal × PyVal) → Bool
  | [] => true
  | (k, v) :: rest =>
      (match k with
       | .str _ => true
       | _ => false) && rtVal v && rtKVs rest

end

mutual

/-- The nesting depth of a value: the number of path segments `_serialize`
appends on the way to its deepest leaf. -/
def pyDepth : PyVal → Nat
  | .list xs => 1 + pyDepthList xs
  | .tuple xs => 1 + pyDepthList xs
  | .set xs => 1 + pyDepthList xs
  | .dict kvs => 1 + pyDepthKVs kvs
  | .serObj p => 1 + pyDepth p
  | _ => 0

/-- Maximum depth of the elements. -/
def pyDepthList : List PyVal → Nat
  | [] => 0
  | x :: rest => max (pyDepth x) (pyDepthList rest)

/-- Maximum depth of the values. -/
def pyDepthKVs : List (PyVal × PyVal) → Nat
  | [] => 0
  | (_, v) :: rest => max (pyDepth v) (pyDepthKVs rest)

end

/-- Serialize, then deserialize against the value's own runtime type, as
the round-trip property composes the two directions.  `none` when either
direction raises. -/
def roundTrip (fieldName : String) (v : PyVal) (path : List PyVal) (limit : Nat)
    (pol : BadTypeHandling) : Option PyVal :=
  match pySerialize v path limit with
  | .error _ => Option.none
  | .ok s =>
      match (deserializeField fieldName (typeOfRT v) s [] pol false true).fst with
      | .error _ => Option.none
      | .ok r => some r

/-- A value nested `n` levels deep: `n` nested singleton lists around an
`int` leaf. -/
def nestList : Nat → PyVal
  | 0 => .int 5
  | n + 1 => .list [nestList n]

/-- The matching type hint: `n` nested `List[...]` generics around `int`. -/
def nestHint : Nat → THint
  | 0 => .prim .int
  | n + 1 => .genColl .list [nestHint n]

/-- Is a key-trace segment a string key (which includes the synthetic
`"[serialize]"` marker) or an integer index, as the claimed KeyTrace
invariant demands? -/
def claimSegOk : PyVal → Bool
  | .str _ => true
  | .int _ => true
  | _ => false

/-- The `path` carried by a serializer exception (`RecursionError` carries
none). -/
def serrPath : SErr → Option (List PyVal)
  | .recursionError => Option.none
  | .nonStringMappingKey _ _ p => some p
  | .multiTypeList _ _ p => some p
  | .nonSerializableObject _ _ p => some p

/-- The `depth` carried by a serializer exception. -/
def serrDepth : SErr → Option Int
  | .recursionError => Option.none
  | .nonStringMappingKey _ d _ => some d
  | .multiTypeList _ d _ => some d
  | .nonSerializableObject _ d _ => some d

/-- Does a silent probe (`_noLog=True`) of a Union member accept the
value? -/
def unionProbeAccepts (fieldName : String) (g : THint) (v : PyVal) (trace : List PyVal)
    (pol : BadTypeHandling) (dS : Bool) : Bool :=
  match (deserializeField fieldName g v trace pol true dS).fst with
  | .ok _ => true
  | .error _ => false

/-- A token that neither ends a line (`NL`/`NEWLINE`/`ENDMARKER`), nor is a
comment, nor is dropped (`DEDENT`): the tokens that accumulate into a
content line. -/
def contentTok (t : Tok) : Bool :=
  t.ty != .NL && t.ty != .NEWLINE && t.ty != .ENDMARKER &&
    t.ty != .COMMENT && t.ty != .DEDENT

/-- Does scanning the token stream register a variable named `n`? -/
def scanRegisters (n : String) (ts : List Tok) (g : String → Option PyVal) : Bool :=
  match scanTokens ts g with
  | .ok vs => varsContains vs n
  | .error _ => false

/-- The recognition rule exactly as the claim states it: the first token of
the logical line is a bare identifier (`NAME`), some later token of the
same line is the assignment operator, and the line is not itself a
comment. -/
def claimRecognizes (line : List Tok) : Bool :=
  match line with
  | [] => false
  | t0 :: rest =>
      t0.ty == .NAME && rest.any (fun t => t.ty == .OP && t.str == "=") &&
        t0.ty != .COMMENT

/-! ## Serializer lemmas: depth limit, key traces, identity on
round-trippable values -/

/-- The entry check of `_serialize`: a call entered with
`len(path) > depthLimit` raises `RecursionError` before inspecting the
value. -/
theorem pySerialize_entry_recursion (o : PyVal) (path : List PyVal) (limit : Nat)
    (h : path.length > limit) : pySerialize o path limit = .error .recursionError := by
  rw [pySerialize.eq_def]
  simp [h]

mutual

/-- `_serialize` cannot raise `RecursionError` when the entry path length
plus the value's nesting depth stays within the limit. -/
theorem pySerialize_no_recursionError (o : PyVal) (path : List PyVal) (limit : Nat)
    (h : path.length + pyDepth o ≤ limit) :
    pySerialize o path limit ≠ .error .recursionError := by
  rw [pySerialize.eq_def]
  rw [if_neg (by omega)]
  cases o with
  | bool b => simp
  | int n => simp
  | float f => simp
  | str s => simp
  | none => simp
  | obj t => simp
  | serObj q =>
      have e1 : pyDepth (.serObj q) = 1 + pyDepth q := rfl
      rw [e1] at h
      refine pySerialize_no_recursionError q (path ++ [PyVal.str "[serialize]"]) limit ?_
      rw [List.length_append]
      simp only [List.length_cons, List.length_nil]
      omega
  | dict kvs =>
      have e1 : pyDepth (.dict kvs) = 1 + pyDepthKVs kvs := rfl
      rw [e1] at h
      have hrec := pySerializeKVs_no_recursionError kvs path limit (by omega)
      cases hkv : pySerializeKVs kvs path limit with
      | error e => rw [hkv] at hrec; simp only [hkv]; simpa using hrec
      | ok out => simp [hkv]
  | list xs =>
      have e1 : pyDepth (.list xs) = 1 + pyDepthList xs := rfl
      rw [e1] at h
      have hrec := pySerializeElems_no_recursionError xs path limit (by omega)
      cases hel : pySerializeElems xs path limit with
      | error e => rw [hel] at hrec; simp only [hel]; simpa using hrec
      | ok elems =>
          simp only [hel]
          unfold finishIterable
          split <;> simp
  | tuple xs =>
      have e1 : pyDepth (.tuple xs) = 1 + pyDepthList xs := rfl
      rw [e1] at h
      have hrec := pySerializeElems_no_recursionError xs path limit (by omega)
      cases hel : pySerializeElems xs path limit with
      | error e => rw [hel] at hrec; simp only [hel]; simpa using hrec
      | ok elems =>
          simp only [hel]
          unfold finishIterable
          split <;> simp
  | set xs =>
      have e1 : pyDepth (.set xs) = 1 + pyDepthList xs := rfl
      rw [e1] at h
      have hrec := pySerializeElems_no_recursionError xs path limit (by omega)
      cases hel : pySerializeElems xs path limit with
      | error e => rw [hel] at hrec; simp only [hel]; simpa using hrec
      | ok elems =>
          simp only [hel]
          unfold finishIterable
          split <;> simp

/-- Auxiliary to `pySerialize_no_recursionError`, for the element loop. -/
theorem pySerializeElems_no_recursionError (xs : List PyVal) (path : List PyVal)
    (limit : Nat) (h : path.length + 1 + pyDepthList xs ≤ limit) :
    pySerializeElems xs path limit ≠ .error .recursionError := by
  rw [pySerializeElems.eq_def]
  cases xs with
  | nil => simp
  | cons x rest =>
      have e1 : pyDepthList (x :: rest) = max (pyDepth x) (pyDepthList rest) := rfl
      rw [e1] at h
      have hx := pySerialize_no_recursionError x (path ++ [x]) limit
        (by rw [List.length_append]; simp only [List.length_cons, List.length_nil]; omega)
      cases hser : pySerialize x (path ++ [x]) limit with
      | error e => rw [hser] at hx; simp only [hser]; simpa using hx
      | ok s =>
          simp only [hser]
          have hrest := pySerializeElems_no_recursionError rest path limit (by omega)
          cases hr : pySerializeElems rest path limit with
          | error e => rw [hr] at hrest; simpa using hrest
          | ok out => simp

/-- Auxiliary to `pySerialize_no_recursionError`, for the mapping loop. -/
theorem pySerializeKVs_no_recursionError (kvs : List (PyVal × PyVal)) (path : List PyVal)
    (limit : Nat) (h : path.length + 1 + pyDepthKVs kvs ≤ limit) :
    pySerializeKVs kvs path limit ≠ .error .recursionError := by
  rw [pySerializeKVs.eq_def]
  cases kvs with
  | nil => simp
  | cons kv rest =>
      obtain ⟨k, v⟩ := kv
      have e1 : pyDepthKVs ((k, v) :: rest) = max (pyDepth v) (pyDepthKVs rest) := rfl
      rw [e1] at h
      cases k with
      | str s =>
          have hv := pySerialize_no_recursionError v (path ++ [PyVal.str s]) limit
            (by rw [List.length_append]; simp only [List.length_cons, List.length_nil]; omega)
          cases hser : pySerialize v (path ++ [PyVal.str s]) limit with
          | error e => rw [hser] at hv; simp only [hser]; simpa using hv
          | ok sv =>
              simp only [hser]
              have hrest := pySerializeKVs_no_recursionError rest path limit (by omega)
              cases hr : pySerializeKVs rest path limit with
              | error e => rw [hr] at hrest; simpa using hrest
              | ok out => simp
      | bool b => simp
      | int n => simp
      | float f => simp
      | none => simp
      | list l => simp
      | tuple l => simp
      | set l => simp
      | dict d => simp
      | serObj q => simp
      | obj t => simp

end

mutual

/-- Every key-traced exception `_serialize` raises stores
`depth = len(path) - 1` for the path it carries, and that path extends the
path of the entry call. -/
theorem pySerialize_keytrace (o : PyVal) (path : List PyVal) (limit : Nat) (e : SErr)
    (p : List PyVal) (he : pySerialize o path limit = .error e)
    (hp : serrPath e = some p) :
    serrDepth e = some ((p.length : Int) - 1) ∧ path <+: p := by
  rw [pySerialize.eq_def] at he
  by_cases hlim : path.length > limit
  · rw [if_pos hlim] at he
    injection he with h1
    subst h1
    simp [serrPath] at hp
  · rw [if_neg hlim] at he
    cases o with
    | bool b => simp at he
    | int n => simp at he
    | float f => simp at he
    | str s => simp at he
    | none =>
        dsimp only at he
        injection he with h1
        subst h1
        simp only [serrPath, Option.some.injEq] at hp
        subst hp
        exact ⟨rfl, List.prefix_refl _⟩
    | obj t =>
        dsimp only at he
        injection he with h1
        subst h1
        simp only [serrPath, Option.some.injEq] at hp
        subst hp
        exact ⟨rfl, List.prefix_refl _⟩
    | serObj q =>
        dsimp only at he
        have ih := pySerialize_keytrace q (path ++ [PyVal.str "[serialize]"]) limit e p he hp
        exact ⟨ih.1, (List.prefix_append path _).trans ih.2⟩
    | dict kvs =>
        dsimp only at he
        cases hkv : pySerializeKVs kvs path limit with
        | error e2 =>
            rw [hkv] at he
            simp only [Except.error.injEq] at he
            subst he
            exact pySerializeKVs_keytrace kvs path limit e2 p hkv hp
        | ok out => rw [hkv] at he; simp at he
    | list xs =>
        dsimp only at he
        cases hel : pySerializeElems xs path limit with
        | error e2 =>
            rw [hel] at he
            simp only [Except.error.injEq] at he
            subst he
            exact pySerializeElems_keytrace xs path limit e2 p hel hp
        | ok elems =>
            rw [hel] at he
            dsimp only at he
            unfold finishIterable at he
            split at he
            · injection he with h1
              subst h1
              simp only [serrPath, Option.some.injEq] at hp
              subst hp
              exact ⟨rfl, List.prefix_refl _⟩
            · simp at he
    | tuple xs =>
        dsimp only at he
        cases hel : pySerializeElems xs path limit with
        | error e2 =>
            rw [hel] at he
            simp only [Except.error.injEq] at he
            subst he
            exact pySerializeElems_keytrace xs path limit e2 p hel hp
        | ok elems =>
            rw [hel] at he
            dsimp only at he
            unfold finishIterable at he
            split at he
            · injection he with h1
              subst h1
              simp only [serrPath, Option.some.injEq] at hp
              subst hp
              exact ⟨rfl, List.prefix_refl _⟩
            · simp at he
    | set xs =>
        dsimp only at he
        cases hel : pySerializeElems xs path limit with
        | error e2 =>
            rw [hel] at he
            simp only [Except.error.injEq] at he
            subst he
            exact pySerializeElems_keytrace xs path limit e2 p hel hp
        | ok elems =>
            rw [hel] at he
            dsimp only at he
            unfold finishIterable at he
            split at he
            · injection he with h1
              subst h1
              simp only [serrPath, Option.some.injEq] at hp
              subst hp
              exact ⟨rfl, List.prefix_refl _⟩
            · simp at he
termination_by structural o

/-- Auxiliary to `pySerialize_keytrace`, for the element loop. -/
theorem pySerializeElems_keytrace (xs : List PyVal) (path : List PyVal) (limit : Nat)
    (e : SErr) (p : List PyVal) (he : pySerializeElems xs path limit = .error e)
    (hp : serrPath e = some p) :
    serrDepth e = some ((p.length : Int) - 1) ∧ path <+: p := by
  rw [pySerializeElems.eq_def] at he
  cases xs with
  | nil => simp at he
  | cons x rest =>
      dsimp only at he
      cases hser : pySerialize x (path ++ [x]) limit with
      | error e2 =>
          rw [hser] at he
          simp only [Except.error.injEq] at he
          subst he
          have ih := pySerialize_keytrace x (path ++ [x]) limit e2 p hser hp
          exact ⟨ih.1, (List.prefix_append path _).trans ih.2⟩
      | ok s =>
          rw [hser] at he
          dsimp only at he
          cases hr : pySerializeElems rest path limit with
          | error e2 =>
              rw [hr] at he
              simp only [Except.error.injEq] at he
              subst he
              exact pySerializeElems_keytrace rest path limit e2 p hr hp
          | ok out => rw [hr] at he; simp at he
termination_by structural xs

/-- Auxiliary to `pySerialize_keytrace`, for the mapping loop. -/
theorem pySerializeKVs_keytrace (kvs : List (PyVal × PyVal)) (path : List PyVal)
    (limit : Nat) (e : SErr) (p : List PyVal)
    (he : pySerializeKVs kvs path limit = .error e) (hp : serrPath e = some p) :
    serrDepth e = some ((p.length : Int) - 1) ∧ path <+: p := by
  rw [pySerializeKVs.eq_def] at he
  cases kvs with
  | nil => simp at he
  | cons kv rest =>
      obtain ⟨k, v⟩ := kv
      cases k with
      | str s =>
          dsimp only at he
          cases hser : pySerialize v (path ++ [PyVal.str s]) limit with
          | error e2 =>
              rw [hser] at he
              simp only [Except.error.injEq] at he
              subst he
              have ih := pySerialize_keytrace v (path ++ [PyVal.str s]) limit e2 p hser hp
              exact ⟨ih.1, (List.prefix_append path _).trans ih.2⟩
          | ok sv =>
              rw [hser] at he
              dsimp only at he
              cases hr : pySerializeKVs rest path limit with
              | error e2 =>
                  rw [hr] at he
                  simp only [Except.error.injEq] at he
                  subst he
                  exact pySerializeKVs_keytrace rest path limit e2 p hr hp
              | ok out => rw [hr] at he; simp at he
      | bool b =>
          simp only [Except.error.injEq] at he
          subst he
          simp only [serrPath, Option.some.injEq] at hp
          subst hp
          exact ⟨rfl, List.prefix_refl _⟩
      | int n =>
          simp only [Except.error.injEq] at he
          subst he
          simp only [serrPath, Option.some.injEq] at hp
          subst hp
          exact ⟨rfl, List.prefix_refl _⟩
      | float f =>
          simp only [Except.error.injEq] at he
          subst he
          simp only [serrPath, Option.some.injEq] at hp
          subst hp
          exact ⟨rfl, List.prefix_refl _⟩
      | none =>
          simp only [Except.error.injEq] at he
          subst he
          simp only [serrPath, Option.some.injEq] at hp
          subst hp
          exact ⟨rfl, List.prefix_refl _⟩
      | list l =>
          simp only [Except.error.injEq] at he
          subst he
          simp only [serrPath, Option.some.injEq] at hp
          subst hp
          exact ⟨rfl, List.prefix_refl _⟩
      | tuple l =>
          simp only [Except.error.injEq] at he
          subst he
          simp only [serrPath, Option.some.injEq] at hp
          subst hp
          exact ⟨rfl, List.prefix_refl _⟩
      | set l =>
          simp only [Except.error.injEq] at he
          subst he
          simp only [serrPath, Option.some.injEq] at hp
          subst hp
          exact ⟨rfl, List.prefix_refl _⟩
      | dict d =>
          simp only [Except.error.injEq] at he
          subst he
          simp only [serrPath, Option.some.injEq] at hp
          subst hp
          exact ⟨rfl, List.prefix_refl _⟩
      | serObj q =>
          simp only [Except.error.injEq] at he
          subst he
          simp only [serrPath, Option.some.injEq] at hp
          subst hp
          exact ⟨rfl, List.prefix_refl _⟩
      | obj t =>
          simp only [Except.error.injEq] at he
          subst he
          simp only [serrPath, Option.some.injEq] at hp
          subst hp
          exact ⟨rfl, List.prefix_refl _⟩
termination_by structural kvs

end

/-! ## Round-trip lemmas (claim C1) -/

mutual

/-- `_serialize` is the identity on round-trippable values within the
depth limit. -/
theorem pySerialize_rt_id (v : PyVal) (path : List PyVal) (limit : Nat)
    (hrt : rtVal v = true) (h : path.length + pyDepth v ≤ limit) :
    pySerialize v path limit = .ok v := by
  rw [pySerialize.eq_def]
  rw [if_neg (by omega)]
  cases v with
  | bool b => rfl
  | int n => rfl
  | float f => rfl
  | str s => rfl
  | none => exact absurd hrt (by simp [rtVal])
  | obj t => exact absurd hrt (by simp [rtVal])
  | serObj q => exact absurd hrt (by simp [rtVal])
  | tuple xs => exact absurd hrt (by simp [rtVal])
  | set xs => exact absurd hrt (by simp [rtVal])
  | dict kvs =>
      have e1 : pyDepth (.dict kvs) = 1 + pyDepthKVs kvs := rfl
      rw [e1] at h
      have e2 : rtVal (.dict kvs) = rtKVs kvs := rfl
      rw [e2] at hrt
      dsimp only
      rw [pySerializeKVs_rt_id kvs path limit hrt (by omega)]
  | list xs =>
      have e1 : pyDepth (.list xs) = 1 + pyDepthList xs := rfl
      rw [e1] at h
      have e2 : rtVal (.list xs) = (rtList xs && !multiTypeLong xs) := rfl
      rw [e2] at hrt
      simp only [Bool.and_eq_true, Bool.not_eq_eq_eq_not, Bool.not_true] at hrt
      dsimp only
      rw [pySerializeElems_rt_id xs path limit hrt.1 (by omega)]
      dsimp only
      unfold finishIterable
      rw [if_neg ?hmt]
      case hmt =>
        rintro ⟨h1, h2⟩
        cases xs with
        | nil => simp at h1
        | cons a t =>
            cases t with
            | nil => simp at h1
            | cons b t2 =>
                have e3 : multiTypeLong (a :: b :: t2) = multiTypeCheck (a :: b :: t2) := rfl
                rw [hrt.2] at e3
                rw [← e3] at h2
                simp at h2

/-- Auxiliary to `pySerialize_rt_id`, for the element loop. -/
theorem pySerializeElems_rt_id (xs : List PyVal) (path : List PyVal) (limit : Nat)
    (hrt : rtList xs = true) (h : path.length + 1 + pyDepthList xs ≤ limit) :
    pySerializeElems xs path limit = .ok xs := by
  rw [pySerializeElems.eq_def]
  cases xs with
  | nil => rfl
  | cons x rest =>
      have e1 : pyDepthList (x :: rest) = max (pyDepth x) (pyDepthList rest) := rfl
      rw [e1] at h
      have e2 : rtList (x :: rest) = (rtVal x && rtList rest) := rfl
      rw [e2] at hrt
      simp only [Bool.and_eq_true] at hrt
      dsimp only
      rw [pySerialize_rt_id x (path ++ [x]) limit hrt.1
        (by rw [List.length_append]; simp only [List.length_cons, List.length_nil]; omega)]
      dsimp only
      rw [pySerializeElems_rt_id rest path limit hrt.2 (by omega)]
termination_by structural xs

/-- Auxiliary to `pySerialize_rt_id`, for the mapping loop. -/
theorem pySerializeKVs_rt_id (kvs : List (PyVal × PyVal)) (path : List PyVal) (limit : Nat)
    (hrt : rtKVs kvs = true) (h : path.length + 1 + pyDepthKVs kvs ≤ limit) :
    pySerializeKVs kvs path limit = .ok kvs := by
  rw [pySerializeKVs.eq_def]
  cases kvs with
  | nil => rfl
  | cons kv rest =>
      obtain ⟨k, v⟩ := kv
      have e1 : pyDepthKVs ((k, v) :: rest) = max (pyDepth v) (pyDepthKVs rest) := rfl
      rw [e1] at h
      cases k with
      | str s =>
          have e2 : rtKVs ((PyVal.str s, v) :: rest) = (true && rtVal v && rtKVs rest) := rfl
          rw [e2] at hrt
          simp only [Bool.true_and, Bool.and_eq_true] at hrt
          dsimp only
          rw [pySerialize_rt_id v (path ++ [PyVal.str s]) limit hrt.1
            (by rw [List.length_append]; simp only [List.length_cons, List.length_nil]; omega)]
          dsimp only
          rw [pySerializeKVs_rt_id rest path limit hrt.2 (by omega)]
      | bool b => exact absurd hrt (by simp [rtKVs])
      | int n => exact absurd hrt (by simp [rtKVs])
      | float f => exact absurd hrt (by simp [rtKVs])
      | none => exact absurd hrt (by simp [rtKVs])
      | list l => exact absurd hrt (by simp [rtKVs])
      | tuple l => exact absurd hrt (by simp [rtKVs])
      | set l => exact absurd hrt (by simp [rtKVs])
      | dict d => exact absurd hrt (by simp [rtKVs])
      | serObj q => exact absurd hrt (by simp [rtKVs])
      | obj t => exact absurd hrt (by simp [rtKVs])
termination_by structural kvs

end

/-- Deserializing a round-trippable value against its own concrete runtime
type returns it unchanged with no logging: the concrete primitive branch
of `_deserializeField` checks `isinstance` and hands the matching value to
`_handleTypeCasts`, whose match branch returns it untouched. -/
theorem deserializeField_rt_id (v : PyVal) (fieldName : String) (trace : List PyVal)
    (pol : BadTypeHandling) (noLog dS : Bool) (hrt : rtVal v = true) :
    deserializeField fieldName (typeOfRT v) v trace pol noLog dS = (.ok v, []) := by
  cases v with
  | bool b => rfl
  | int n => rfl
  | float f => rfl
  | str s => rfl
  | list xs => rfl
  | dict kvs => rfl
  | none => exact absurd hrt (by simp [rtVal])
  | obj t => exact absurd hrt (by simp [rtVal])
  | serObj q => exact absurd hrt (by simp [rtVal])
  | tuple xs => exact absurd hrt (by simp [rtVal])
  | set xs => exact absurd hrt (by simp [rtVal])

/-! ## Claim C1 -/

/-- C1 (counterexample): a tuple is an ordered collection of primitives,
yet its round trip fails: `_serialize` converts it to a list, and
`_deserializeField` against its own runtime type `tuple` — which is
neither a `SerializableType` implementor nor a member of
`primativeTypesTuple` — reaches the final unconditional
`raise TypeError`, so the round trip raises instead of returning the
value. -/
theorem c1_tuple_roundtrip_fails :
    pySerialize (.tuple [.int 1, .int 2]) [.str "x"] 20 = .ok (.list [.int 1, .int 2]) ∧
    deserializeField "x" (typeOfRT (.tuple [.int 1, .int 2])) (.list [.int 1, .int 2])
        [] {} false true =
      (.error (.typeError "Field x is typed as a non-serializable type: tuple"), []) ∧
    roundTrip "x" (.tuple [.int 1, .int 2]) [.str "x"] 20 {} = Option.none := by
  refine ⟨rfl, rfl, rfl⟩

/-- C1 (amended): the round trip holds on two legs.  (1) For scalar
primitives (`bool`, `int`, `float`, `str`) and nestings of lists and
string-keyed dicts of them in which no list with more than one element
mixes dict and non-dict members, within the serializer's depth limit:
serialization returns the value unchanged, and deserialization against
the value's own runtime type returns it unchanged with no logging, under
every bad-type policy.  (2) For a SerializableContract implementor
wrapping such a payload (its `serialize()` returning the payload, its
class's `deserialize` the reciprocal required by the contract, as the
repository's own implementors such as `SerializablePath` realise it):
serialization pushes the `"[serialize]"` marker and returns the payload,
the implementor's runtime type delegates to the class's `deserialize`
(dataclasses.py:179-183), and the round trip recovers the implementor
value. -/
theorem c1_roundtrip_amended :
    (∀ (fieldName : String) (v : PyVal) (path trace : List PyVal) (limit : Nat)
        (pol : BadTypeHandling) (noLog dS : Bool),
      rtVal v = true → path.length + pyDepth v ≤ limit →
      pySerialize v path limit = .ok v ∧
      deserializeField fieldName (typeOfRT v) v trace pol noLog dS = (.ok v, []) ∧
      roundTrip fieldName v path limit pol = some v) ∧
    (∀ (fieldName : String) (payload : PyVal) (path trace : List PyVal) (limit : Nat)
        (pol : BadTypeHandling) (noLog : Bool),
      rtVal payload = true → path.length + pyDepth (.serObj payload) ≤ limit →
      pySerialize (.serObj payload) path limit = .ok payload ∧
      deserializeField fieldName (typeOfRT (.serObj payload)) payload trace pol noLog true =
        (.ok (.serObj payload), []) ∧
      roundTrip fieldName (.serObj payload) path limit pol = some (.serObj payload)) := by
  constructor
  · intro fieldName v path trace limit pol noLog dS hrt h
    have hs := pySerialize_rt_id v path limit hrt h
    have hd := deserializeField_rt_id v fieldName [] pol false true hrt
    refine ⟨hs, deserializeField_rt_id v fieldName trace pol noLog dS hrt, ?_⟩
    unfold roundTrip
    rw [hs]
    dsimp only
    rw [hd]
  · intro fieldName payload path trace limit pol noLog hrt h
    have e1 : pyDepth (.serObj payload) = 1 + pyDepth payload := rfl
    rw [e1] at h
    have hs : pySerialize (.serObj payload) path limit = .ok payload := by
      rw [pySerialize.eq_def]
      rw [if_neg (by omega)]
      dsimp only
      exact pySerialize_rt_id payload (path ++ [PyVal.str "[serialize]"]) limit hrt
        (by rw [List.length_append]; simp only [List.length_cons, List.length_nil]; omega)
    refine ⟨hs, rfl, ?_⟩
    unfold roundTrip
    rw [hs]
    rfl

/-- C1 (witness): the amended round trip evaluated on the concrete value
`{"a": [1, 2], "b": "s"}` and on an implementor wrapping the payload
`"a/b"` (the shape of a serialized `SerializablePath`). -/
theorem c1_roundtrip_amended_witness :
    (pySerialize (.dict [(.str "a", .list [.int 1, .int 2]), (.str "b", .str "s")])
        [.str "x"] 20 =
      .ok (.dict [(.str "a", .list [.int 1, .int 2]), (.str "b", .str "s")]) ∧
    deserializeField "x"
        (typeOfRT (.dict [(.str "a", .list [.int 1, .int 2]), (.str "b", .str "s")]))
        (.dict [(.str "a", .list [.int 1, .int 2]), (.str "b", .str "s")]) [] {} false true =
      (.ok (.dict [(.str "a", .list [.int 1, .int 2]), (.str "b", .str "s")]), []) ∧
    roundTrip "x" (.dict [(.str "a", .list [.int 1, .int 2]), (.str "b", .str "s")])
        [.str "x"] 20 {} =
      some (.dict [(.str "a", .list [.int 1, .int 2]), (.str "b", .str "s")])) ∧
    (pySerialize (.serObj (.str "a/b")) [.str "x"] 20 = .ok (.str "a/b") ∧
    deserializeField "x" (typeOfRT (.serObj (.str "a/b"))) (.str "a/b") [] {} false true =
      (.ok (.serObj (.str "a/b")), []) ∧
    roundTrip "x" (.serObj (.str "a/b")) [.str "x"] 20 {} = some (.serObj (.str "a/b"))) :=
  ⟨c1_roundtrip_amended.1 "x"
      (.dict [(.str "a", .list [.int 1, .int 2]), (.str "b", .str "s")])
      [.str "x"] [] 20 {} false true (by decide) (by decide),
    c1_roundtrip_amended.2 "x" (.str "a/b") [.str "x"] [] 20 {} false
      (by decide) (by decide)⟩

/-! ## Claim C5 -/

/-- C5 (counterexample): deserialization has no depth limit at all:
`_deserializeField` applied to a 21-level-nested list against the
21-level-nested `List[...]` hint succeeds and returns the value, instead
of raising `RecursionError` as the claim states (the deserializer's error
domain does not even contain a recursion error). -/
theorem c5_deserialize_unbounded :
    deserializeField "x" (nestHint 21) (nestList 21) [] {} false true =
      (.ok (nestList 21), []) := by
  rfl

/-- C5 (amended): the depth bound governs serialization only:
`_serialize` raises `RecursionError` exactly when a recursive call is
entered with `len(path) > depthLimit` — immediately whenever the entry
path exceeds the limit, and never when the entry path length plus the
value's nesting depth stays within it — so a 21-level-nested structure
serialized against `depthLimit=20` raises `RecursionError` while a
20-level one succeeds.  `_deserializeField` has no such bound. -/
theorem c5_depth_limit_amended :
    (∀ (o : PyVal) (path : List PyVal) (limit : Nat), path.length > limit →
      pySerialize o path limit = .error .recursionError) ∧
    (∀ (o : PyVal) (path : List PyVal) (limit : Nat), path.length + pyDepth o ≤ limit →
      pySerialize o path limit ≠ .error .recursionError) ∧
    pySerialize (nestList 21) [] 20 = .error .recursionError ∧
    pySerialize (nestList 20) [] 20 = .ok (nestList 20) :=
  ⟨pySerialize_entry_recursion, pySerialize_no_recursionError, rfl, rfl⟩

/-- C5 (witness): the two quantified parts of the amended depth-limit
statement applied at concrete inputs. -/
theorem c5_depth_limit_amended_witness :
    pySerialize (.int 7) [.str "a", .str "b"] 1 = .error .recursionError ∧
    pySerialize (.int 7) [.str "a"] 1 ≠ .error .recursionError :=
  ⟨c5_depth_limit_amended.1 (.int 7) [.str "a", .str "b"] 1 (by decide),
    c5_depth_limit_amended.2.1 (.int 7) [.str "a"] 1 (by decide)⟩

/-! ## Claim C8 -/

/-- C8 (counterexample): serializing `[[X]]` for a non-serializable `X`
raises `NonSerializableObject` whose key trace is
`["v", [X], X]`: the iterable branch appends the *element itself*
(`path + [i]`), not its integer index, so the second segment is a list —
neither a string key, nor an integer index, nor the `"[serialize]"`
marker — and the stored depth is `2`, the path length minus one, not the
path length. -/
theorem c8_keytrace_violations :
    pySerialize (.list [.list [.obj 0]]) [.str "v"] 20 =
      .error (.nonSerializableObject (.obj 0) 2 [.str "v", .list [.obj 0], .obj 0]) ∧
    List.all [PyVal.str "v", .list [.obj 0], .obj 0] claimSegOk = false ∧
    serrDepth (.nonSerializableObject (.obj 0) 2 [.str "v", .list [.obj 0], .obj 0]) ≠
      some (([PyVal.str "v", .list [.obj 0], .obj 0].length : Int)) := by
  refine ⟨rfl, rfl, by simp [serrDepth]⟩

/-- C8 (amended): every key-traced exception `_serialize` raises carries a
path that extends the path of the entry call — the appended segments
being mapping keys, the `"[serialize]"` marker, or sequence *element
values* — and stores a depth equal to the length of that path minus one
(not the length itself). -/
theorem c8_keytrace_amended (o : PyVal) (path : List PyVal) (limit : Nat) (e : SErr)
    (p : List PyVal) (he : pySerialize o path limit = .error e)
    (hp : serrPath e = some p) :
    serrDepth e = some ((p.length : Int) - 1) ∧ path <+: p :=
  pySerialize_keytrace o path limit e p he hp

/-- C8 (witness): the amended key-trace invariant evaluated on the
serialization of a bare non-serializable object. -/
theorem c8_keytrace_amended_witness :
    serrDepth (.nonSerializableObject (.obj 0) (((1 : Nat) : Int) - 1) [.str "v"]) =
      some ((([PyVal.str "v"] : List PyVal).length : Int) - 1) ∧
    [PyVal.str "v"] <+: [PyVal.str "v"] :=
  c8_keytrace_amended (.obj 0) [.str "v"] 20
    (.nonSerializableObject (.obj 0) (((1 : Nat) : Int) - 1) [.str "v"]) [.str "v"] rfl rfl

/-! ## Claim C9 -/

/-- C9 (counterexample): `SerializableDataClass.deserialize` mutates its
input mapping: deserializing `{"f": [1]}` for a class whose field `f` is
hinted `Tuple[int, ...]`-style leaves the input holding the tuple `(1,)`
— the caller's mapping after the call differs from what was passed in,
contradicting the claim that inputs are left unmodified. -/
theorem c9_deserialize_mutates_input :
    deserializeDC "C" [("f", .genColl .tuple [.prim .int])]
        (.dict [(.str "f", .list [.int 1])]) true [] {} =
      (.ok [("f", .tuple [.int 1])], .dict [(.str "f", .tuple [.int 1])], []) ∧
    (PyVal.dict [(.str "f", .tuple [.int 1])]) ≠ .dict [(.str "f", .list [.int 1])] := by
  refine ⟨rfl, by simp⟩

/-- C9 (amended): the write-back is exactly per-entry: whenever the entry
loop of `deserialize` finishes without raising, the `data` mapping the
caller observes afterwards keeps its keys in order but holds, under each
key, the deserialized value of the original entry — the input is mutated
into the mapping of deserialized fields. -/
theorem c9_mutation_amended (flds : List (String × THint)) (trace : List PyVal)
    (pol : BadTypeHandling) (dV : Bool) (kvs : List (PyVal × PyVal))
    (hok : (dcLoop flds trace pol dV kvs).1 = Option.none) :
    List.Forall₂ (fun kv fin => kv.1 = fin.1 ∧
        ∃ s ft, kv.1 = PyVal.str s ∧ flds.lookup s = some ft ∧
          (deserializeField s ft kv.2 (trace ++ [.str s]) pol false dV).fst = .ok fin.2)
      kvs (dcLoop flds trace pol dV kvs).2.1 := by
  induction kvs with
  | nil => exact List.Forall₂.nil
  | cons kv rest ih =>
      obtain ⟨k, v⟩ := kv
      cases k with
      | str s =>
          cases hl : flds.lookup s with
          | none =>
              simp only [dcLoop, hl] at hok
              simp at hok
          | some ft =>
              cases hd : deserializeField s ft v (trace ++ [.str s]) pol false dV with
              | mk res logs =>
                  cases res with
                  | error e =>
                      simp only [dcLoop, hl, hd] at hok
                      simp at hok
                  | ok v2 =>
                      cases hr : dcLoop flds trace pol dV rest with
                      | mk err out =>
                          cases out with
                          | mk finalRest logs2 =>
                              simp only [dcLoop, hl, hd, hr] at hok
                              simp only [dcLoop, hl, hd, hr]
                              refine List.Forall₂.cons ⟨rfl, s, ft, rfl, hl, by rw [hd]⟩ ?_
                              have h2 := ih (by rw [hr]; simpa using hok)
                              rw [hr] at h2
                              simpa using h2
      | bool b =>
          have hb : (dcLoop flds trace pol dV ((PyVal.bool b, v) :: rest)).1 =
              some (.nonStringMappingKeyV (.bool b) (trace.length : Int) trace) := rfl
          rw [hb] at hok
          simp at hok
      | int n =>
          have hb : (dcLoop flds trace pol dV ((PyVal.int n, v) :: rest)).1 =
              some (.nonStringMappingKeyV (.int n) (trace.length : Int) trace) := rfl
          rw [hb] at hok
          simp at hok
      | float f =>
          have hb : (dcLoop flds trace pol dV ((PyVal.float f, v) :: rest)).1 =
              some (.nonStringMappingKeyV (.float f) (trace.length : Int) trace) := rfl
          rw [hb] at hok
          simp at hok
      | none =>
          have hb : (dcLoop flds trace pol dV ((PyVal.none, v) :: rest)).1 =
              some (.nonStringMappingKeyV .none (trace.length : Int) trace) := rfl
          rw [hb] at hok
          simp at hok
      | list l =>
          have hb : (dcLoop flds trace pol dV ((PyVal.list l, v) :: rest)).1 =
              some (.nonStringMappingKeyV (.list l) (trace.length : Int) trace) := rfl
          rw [hb] at hok
          simp at hok
      | tuple l =>
          have hb : (dcLoop flds trace pol dV ((PyVal.tuple l, v) :: rest)).1 =
              some (.nonStringMappingKeyV (.tuple l) (trace.length : Int) trace) := rfl
          rw [hb] at hok
          simp at hok
      | set l =>
          have hb : (dcLoop flds trace pol dV ((PyVal.set l, v) :: rest)).1 =
              some (.nonStringMappingKeyV (.set l) (trace.length : Int) trace) := rfl
          rw [hb] at hok
          simp at hok
      | dict d =>
          have hb : (dcLoop flds trace pol dV ((PyVal.dict d, v) :: rest)).1 =
              some (.nonStringMappingKeyV (.dict d) (trace.length : Int) trace) := rfl
          rw [hb] at hok
          simp at hok
      | serObj q =>
          have hb : (dcLoop flds trace pol dV ((PyVal.serObj q, v) :: rest)).1 =
              some (.nonStringMappingKeyV (.serObj q) (trace.length : Int) trace) := rfl
          rw [hb] at hok
          simp at hok
      | obj t =>
          have hb : (dcLoop flds trace pol dV ((PyVal.obj t, v) :: rest)).1 =
              some (.nonStringMappingKeyV (.obj t) (trace.length : Int) trace) := rfl
          rw [hb] at hok
          simp at hok

/-- C9 (witness): the mutation characterization evaluated on a one-field
class. -/
theorem c9_mutation_amended_witness :
    List.Forall₂ (fun (kv fin : PyVal × PyVal) => kv.1 = fin.1 ∧
        ∃ s ft, kv.1 = PyVal.str s ∧
          ([("f", THint.prim .int)] : List (String × THint)).lookup s = some ft ∧
          (deserializeField s ft kv.2 (([] : List PyVal) ++ [.str s]) {} false true).fst =
            .ok fin.2)
      [(.str "f", .int 3)]
      (dcLoop [("f", THint.prim .int)] [] {} true [(.str "f", .int 3)]).2.1 :=
  c9_mutation_amended [("f", THint.prim .int)] [] {} true [(.str "f", .int 3)] rfl

/-! ## Union member-loop lemmas (claim C4) -/

/-- If every member before `g` is a `type(None)` member or fails its silent
probe, `g` is not a `type(None)` member, and `g`'s silent probe succeeds,
the Union member loop returns the result of re-running `g` with logging
enabled. -/
theorem unionLoop_first_success (fieldName : String) (pre : List THint) (g : THint)
    (post : List THint) (v : PyVal) (trace : List PyVal) (pol : BadTypeHandling)
    (dS : Bool)
    (hpre : ∀ g2 ∈ pre, isNoneTypeH g2 = true ∨
      unionProbeAccepts fieldName g2 v trace pol dS = false)
    (hg : isNoneTypeH g = false)
    (hacc : unionProbeAccepts fieldName g v trace pol dS = true) :
    (unionLoop fieldName (pre ++ g :: post) v trace pol dS).1 =
      some (deserializeField fieldName g v trace pol false dS).1 := by
  induction pre with
  | nil =>
      rw [List.nil_append, unionLoop]
      rw [hg]
      simp only [Bool.false_eq_true, if_false]
      unfold unionProbeAccepts at hacc
      cases hpr : deserializeField fieldName g v trace pol true dS with
      | mk pres plogs =>
          rw [hpr] at hacc
          cases pres with
          | error e => simp at hacc
          | ok w =>
              dsimp only
  | cons g2 pre2 ih =>
      rw [List.cons_append, unionLoop]
      have ih2 := ih (fun g3 h3 => hpre g3 (List.mem_cons_of_mem g2 h3))
      cases hn : isNoneTypeH g2 with
      | true => rw [if_pos rfl]; exact ih2
      | false =>
          rw [if_neg (by simp)]
          rcases hpre g2 (List.mem_cons_self g2 pre2) with h2 | h2
          · rw [hn] at h2; simp at h2
          · unfold unionProbeAccepts at h2
            cases hpr : deserializeField fieldName g2 v trace pol true dS with
            | mk pres plogs =>
                rw [hpr] at h2
                cases pres with
                | ok w => simp at h2
                | error e =>
                    dsimp only
                    cases hrest : unionLoop fieldName (pre2 ++ g :: post) v trace pol dS with
                    | mk r logs =>
                        dsimp only
                        rw [hrest] at ih2
                        exact ih2

/-- If every member is a `type(None)` member or fails its silent probe, the
Union member loop falls through. -/
theorem unionLoop_all_fail (fieldName : String) (hs : List THint) (v : PyVal)
    (trace : List PyVal) (pol : BadTypeHandling) (dS : Bool)
    (hall : ∀ g ∈ hs, isNoneTypeH g = true ∨
      unionProbeAccepts fieldName g v trace pol dS = false) :
    (unionLoop fieldName hs v trace pol dS).1 = Option.none := by
  induction hs with
  | nil => rfl
  | cons g2 rest ih =>
      rw [unionLoop]
      have ih2 := ih (fun g3 h3 => hall g3 (List.mem_cons_of_mem g2 h3))
      cases hn : isNoneTypeH g2 with
      | true => rw [if_pos rfl]; exact ih2
      | false =>
          rw [if_neg (by simp)]
          rcases hall g2 (List.mem_cons_self g2 rest) with h2 | h2
          · rw [hn] at h2; simp at h2
          · unfold unionProbeAccepts at h2
            cases hpr : deserializeField fieldName g2 v trace pol true dS with
            | mk pres plogs =>
                rw [hpr] at h2
                cases pres with
                | ok w => simp at h2
                | error e =>
                    dsimp only
                    cases hrest : unionLoop fieldName rest v trace pol dS with
                    | mk r logs =>
                        dsimp only
                        rw [hrest] at ih2
                        exact ih2

/-- The Union branch of `_deserializeField` for a non-empty member list,
expressed through the member loop. -/
theorem deserializeField_union_eq (fieldName : String) (a : THint) (rest : List THint)
    (v : PyVal) (trace : List PyVal) (pol : BadTypeHandling) (noLog dS : Bool) :
    deserializeField fieldName (.union (a :: rest)) v trace pol noLog dS =
      (if (a :: rest).any isNoneTypeH && isNoneVal v then (.ok PyVal.none, [])
       else
        match unionLoop fieldName (a :: rest) v trace pol dS with
        | (some r, logs) => (r, logs)
        | (Option.none, logs) =>
            let fieldTypeError :=
              expectedOneOfMsg ((a :: rest).map thintStr) fieldName v
            match pol.behaviour with
            | .keep =>
                (.ok v,
                  logs ++ (if !noLog && pol.logTypeKeeping then
                    ["[WARNING] Keeping mistyped field value: " ++ fieldTypeError] else []))
            | _ =>
                match pol.rejectType with
                | .raise => (.error (.typeError fieldTypeError), logs)
                | .log =>
                    (.error (.typeError (nonSerializableTypeMsg fieldName (.union (a :: rest)))),
                      logs ++ (if !noLog then [fieldTypeError] else []))
                | .ignore =>
                    (.error (.typeError (nonSerializableTypeMsg fieldName (.union (a :: rest)))),
                      logs)) := by
  rfl

/-! ## Claim C4 -/

/-- C4: Union deserialization order, as the code implements it.  (1) A null
value with a `type(None)` member returns null at once.  (2) The first
member, in declaration order, whose silent probe (`_noLog=True`) succeeds
determines the result: the member is re-run with logging enabled and that
attempt's outcome is returned.  (3) When every member fails its probe,
`behaviour=CAST` resolves exactly as `behaviour=REJECT` — no cast is ever
attempted at the Union level — and (4) `behaviour=KEEP` returns the
serialized value. -/
theorem c4_union_declaration_order :
    (∀ (fieldName : String) (args : List THint) (v : PyVal) (trace : List PyVal)
        (pol : BadTypeHandling) (noLog dS : Bool),
      args ≠ [] → args.any isNoneTypeH = true → isNoneVal v = true →
      deserializeField fieldName (.union args) v trace pol noLog dS = (.ok PyVal.none, [])) ∧
    (∀ (fieldName : String) (pre : List THint) (g : THint) (post : List THint) (v : PyVal)
        (trace : List PyVal) (pol : BadTypeHandling) (noLog dS : Bool),
      (∀ g2 ∈ pre, isNoneTypeH g2 = true ∨
        unionProbeAccepts fieldName g2 v trace pol dS = false) →
      isNoneTypeH g = false →
      unionProbeAccepts fieldName g v trace pol dS = true →
      ((pre ++ g :: post).any isNoneTypeH && isNoneVal v) = false →
      (deserializeField fieldName (.union (pre ++ g :: post)) v trace pol noLog dS).1 =
        (deserializeField fieldName g v trace pol false dS).1) ∧
    (∀ (fieldName : String) (args : List THint) (v : PyVal) (trace : List PyVal)
        (pol : BadTypeHandling) (noLog dS : Bool),
      args ≠ [] →
      (args.any isNoneTypeH && isNoneVal v) = false →
      (∀ g ∈ args, isNoneTypeH g = true ∨
        unionProbeAccepts fieldName g v trace { pol with behaviour := .cast } dS = false) →
      (∀ g ∈ args, isNoneTypeH g = true ∨
        unionProbeAccepts fieldName g v trace { pol with behaviour := .reject } dS = false) →
      (deserializeField fieldName (.union args) v trace
          { pol with behaviour := .cast } noLog dS).1 =
        (deserializeField fieldName (.union args) v trace
          { pol with behaviour := .reject } noLog dS).1) ∧
    (∀ (fieldName : String) (args : List THint) (v : PyVal) (trace : List PyVal)
        (pol : BadTypeHandling) (noLog dS : Bool),
      args ≠ [] →
      (args.any isNoneTypeH && isNoneVal v) = false →
      (∀ g ∈ args, isNoneTypeH g = true ∨
        unionProbeAccepts fieldName g v trace { pol with behaviour := .keep } dS = false) →
      (deserializeField fieldName (.union args) v trace
          { pol with behaviour := .keep } noLog dS).1 = .ok v) := by
  refine ⟨?_, ?_, ?_, ?_⟩
  · intro fieldName args v trace pol noLog dS hne hany hnull
    cases args with
    | nil => exact absurd rfl hne
    | cons a rest =>
        rw [deserializeField_union_eq]
        rw [if_pos (by rw [hany, hnull]; rfl)]
  · intro fieldName pre g post v trace pol noLog dS hpre hg hacc hnotnull
    cases hsplit : pre ++ g :: post with
    | nil => exact absurd hsplit (List.append_ne_nil_of_right_ne_nil pre (by simp))
    | cons a rest =>
        rw [hsplit] at hnotnull
        have hloop := unionLoop_first_success fieldName pre g post v trace pol dS hpre hg hacc
        rw [hsplit] at hloop
        rw [deserializeField_union_eq, if_neg (by rw [hnotnull]; simp)]
        cases hu : unionLoop fieldName (a :: rest) v trace pol dS with
        | mk o logs =>
            rw [hu] at hloop
            dsimp only at hloop
            subst hloop
            dsimp only
  · intro fieldName args v trace pol noLog dS hne hnotnull hfc hfr
    cases args with
    | nil => exact absurd rfl hne
    | cons a rest =>
        have hlc := unionLoop_all_fail fieldName (a :: rest) v trace
          { pol with behaviour := .cast } dS hfc
        have hlr := unionLoop_all_fail fieldName (a :: rest) v trace
          { pol with behaviour := .reject } dS hfr
        rw [deserializeField_union_eq, if_neg (by rw [hnotnull]; simp)]
        rw [deserializeField_union_eq, if_neg (by rw [hnotnull]; simp)]
        cases huc : unionLoop fieldName (a :: rest) v trace
            { pol with behaviour := .cast } dS with
        | mk oc logsc =>
            cases hur : unionLoop fieldName (a :: rest) v trace
                { pol with behaviour := .reject } dS with
            | mk or2 logsr =>
                rw [huc] at hlc
                rw [hur] at hlr
                dsimp only at hlc hlr
                subst hlc
                subst hlr
                dsimp only
                cases pol.rejectType <;> rfl
  · intro fieldName args v trace pol noLog dS hne hnotnull hfk
    cases args with
    | nil => exact absurd rfl hne
    | cons a rest =>
        have hlk := unionLoop_all_fail fieldName (a :: rest) v trace
          { pol with behaviour := .keep } dS hfk
        rw [deserializeField_union_eq, if_neg (by rw [hnotnull]; simp)]
        cases huk : unionLoop fieldName (a :: rest) v trace
            { pol with behaviour := .keep } dS with
        | mk ok2 logsk =>
            rw [huk] at hlk
            dsimp only at hlk
            subst hlk
            dsimp only

/-- C4 (witness): the four parts of the Union ordering statement evaluated
at concrete inputs: a null value against `Optional[int]`; the value `5`
against `Union[str, int]` (the `str` probe fails, the `int` probe
succeeds); and the value `"a"` against `Union[int]` for the
cast-equals-reject and keep fallthrough parts. -/
theorem c4_union_declaration_order_witness :
    deserializeField "f" (.union [.noneType, .prim .int]) PyVal.none [] {} false true =
      (.ok PyVal.none, []) ∧
    (deserializeField "f" (.union [.prim .str, .prim .int]) (.int 5) [] {} false true).1 =
      (deserializeField "f" (.prim .int) (.int 5) [] {} false true).1 ∧
    (deserializeField "f" (.union [.prim .int]) (.str "a") []
        { ({} : BadTypeHandling) with behaviour := .cast } false true).1 =
      (deserializeField "f" (.union [.prim .int]) (.str "a") []
        { ({} : BadTypeHandling) with behaviour := .reject } false true).1 ∧
    (deserializeField "f" (.union [.prim .int]) (.str "a") []
        { ({} : BadTypeHandling) with behaviour := .keep } false true).1 = .ok (.str "a") :=
  ⟨c4_union_declaration_order.1 "f" [.noneType, .prim .int] PyVal.none [] {} false true
      (by simp) (by decide) (by decide),
    c4_union_declaration_order.2.1 "f" [.prim .str] (.prim .int) [] (.int 5) [] {} false true
      (by intro g2 hg2; rw [List.mem_singleton] at hg2; subst hg2; exact Or.inr rfl)
      rfl rfl (by decide),
    c4_union_declaration_order.2.2.1 "f" [.prim .int] (.str "a") [] {} false true
      (by simp) (by decide)
      (by intro g2 hg2; rw [List.mem_singleton] at hg2; subst hg2; exact Or.inr rfl)
      (by intro g2 hg2; rw [List.mem_singleton] at hg2; subst hg2; exact Or.inr rfl),
    c4_union_declaration_order.2.2.2 "f" [.prim .int] (.str "a") [] {} false true
      (by simp) (by decide)
      (by intro g2 hg2; rw [List.mem_singleton] at hg2; subst hg2; exact Or.inr rfl)⟩

/-! ## Scanner lemmas (claim C6) -/

/-- Folding over a concatenation runs the two halves in sequence. -/
theorem scanFold_append (g : String → Option PyVal) (st : ScanSt) (l1 l2 : List Tok) :
    scanFold g st (l1 ++ l2) =
      match scanFold g st l1 with
      | .error e => .error e
      | .ok st2 => scanFold g st2 l2 := by
  induction l1 generalizing st with
  | nil => rfl
  | cons t rest ih =>
      rw [List.cons_append, scanFold, scanFold]
      cases scanStep g st t with
      | error e => rfl
      | ok st2 => exact ih st2

/-- In ignore mode the scanner skips tokens until a `NEWLINE`, leaving the
state untouched. -/
theorem scanFold_ignore (g : String → Option PyVal) (ts : List Tok) (st : ScanSt)
    (hig : st.ignoreLine = true) (h : ∀ t ∈ ts, t.ty ≠ TokTy.NEWLINE) :
    scanFold g st ts = .ok st := by
  induction ts with
  | nil => rfl
  | cons t rest ih =>
      rw [scanFold]
      have hstep : scanStep g st t = .ok st := by
        unfold scanStep
        rw [if_pos hig]
        rw [if_neg (by simp [h t (List.mem_cons_self t rest)])]
      rw [hstep]
      exact ih (fun t2 h2 => h t2 (List.mem_cons_of_mem t h2))

/-- A content token (neither line delimiter, comment nor `DEDENT`) that
does not trip the disallowed-first-token filter is appended to the
current line and changes nothing else. -/
theorem scanStep_content (g : String → Option PyVal) (st : ScanSt) (t : Tok)
    (hct : contentTok t = true) (hig : st.ignoreLine = false)
    (hnd : (st.currentLine.isEmpty && tokenDisallowed t) = false) :
    scanStep g st t = .ok { st with currentLine := st.currentLine ++ [t] } := by
  unfold contentTok at hct
  simp only [Bool.and_eq_true, bne_iff_ne, ne_eq] at hct
  obtain ⟨⟨⟨⟨h1, h2⟩, h3⟩, h4⟩, h5⟩ := hct
  unfold scanStep
  rw [if_neg (by rw [hig]; simp)]
  rw [if_neg (by rw [hnd]; simp)]
  rw [if_neg (by simp [h1, h2, h3])]
  rw [if_neg (by simp [h4])]
  rw [if_neg (by simp [h5])]

/-- A run of content tokens accumulates onto a non-empty current line. -/
theorem scanFold_content (g : String → Option PyVal) (ts : List Tok) (st : ScanSt)
    (h : ∀ t ∈ ts, contentTok t = true) (hig : st.ignoreLine = false)
    (hne : st.currentLine.isEmpty = false) :
    scanFold g st ts = .ok { st with currentLine := st.currentLine ++ ts } := by
  induction ts generalizing st with
  | nil => cases st; simp [scanFold]
  | cons t rest ih =>
      rw [scanFold]
      rw [scanStep_content g st t (h t (List.mem_cons_self t rest)) hig (by rw [hne]; simp)]
      dsimp only
      rw [ih { st with currentLine := st.currentLine ++ [t] }
        (fun t2 h2 => h t2 (List.mem_cons_of_mem t h2)) hig (by simp)]
      simp

/-! ## Claim C6 -/

/-- C6 (counterexample): the annotated assignment `x: int = 1` satisfies
the claimed recognition rule — first token a bare identifier, an
assignment operator later on the line, not a comment — yet the scanner
registers nothing for it, even with a total module lookup:
`lineStartsWithVariableIdentifier` demands the `=` as the *second* token
of the line. -/
theorem c6_annotated_assignment_not_registered :
    claimRecognizes
      [Tok.mk .NAME "x", Tok.mk .OP ":", Tok.mk .NAME "int", Tok.mk .OP "=",
        Tok.mk .NUMBER "1"] = true ∧
    scanTokens
      [Tok.mk .NAME "x", Tok.mk .OP ":", Tok.mk .NAME "int", Tok.mk .OP "=",
        Tok.mk .NUMBER "1", Tok.mk .NEWLINE "\n"]
      (fun _ => some (.int 1)) = .ok [] := by
  refine ⟨rfl, rfl⟩

/-- C6 (amended): over a single logical line of content tokens, with a
total module lookup, a variable named `n` is registered iff the line is
non-empty, its first token does not trip the disallowed filter
(indentation, `from`, `import`), the line satisfies
`lineStartsWithVariableIdentifier` — first token a `NAME` and the
*second* token the operator `=`, immediately rather than anywhere later
on the line — and `n` is that first token's text. -/
theorem c6_recognition_amended (ts : List Tok) (g : String → Option PyVal) (n : String)
    (hcontent : ∀ t ∈ ts, contentTok t = true)
    (htotal : ∀ s, (g s).isSome = true) :
    scanRegisters n (ts ++ [Tok.mk .NEWLINE "\n"]) g = true ↔
      ∃ t0 rest, ts = t0 :: rest ∧ tokenDisallowed t0 = false ∧
        lineStartsWithVariableIdentifier ts = true ∧ n = t0.str := by
  cases ts with
  | nil =>
      have h0 : scanRegisters n ([] ++ [Tok.mk .NEWLINE "\n"]) g = false := rfl
      rw [h0]
      simp
  | cons t0 rest =>
      have hct0 := hcontent t0 (List.mem_cons_self _ _)
      have hrest : ∀ t ∈ rest, contentTok t = true :=
        fun t h2 => hcontent t (List.mem_cons_of_mem t0 h2)
      have hcsplit := hct0
      unfold contentTok at hcsplit
      simp only [Bool.and_eq_true, bne_iff_ne, ne_eq] at hcsplit
      obtain ⟨⟨⟨⟨hc1, hc2⟩, hc3⟩, hc4⟩, hc5⟩ := hcsplit
      unfold scanRegisters scanTokens
      by_cases hdis : tokenDisallowed t0 = true
      · -- the disallowed filter discards the whole line
        have h1 : scanStep g (ScanSt.mk [] [] [] false) t0 =
            .ok (ScanSt.mk [] [] [] true) := by
          unfold scanStep
          rw [if_neg (by simp)]
          rw [if_pos (by simp [hdis])]
          have hnl : (t0.ty != TokTy.NEWLINE) = true := by simp [hc2]
          rw [hnl]
        rw [List.cons_append, scanFold, h1]
        dsimp only
        rw [scanFold_append]
        rw [scanFold_ignore g rest (ScanSt.mk [] [] [] true) rfl
          (fun t h2 => by
            have hc := hrest t h2
            unfold contentTok at hc
            simp only [Bool.and_eq_true, bne_iff_ne, ne_eq] at hc
            exact hc.1.1.1.2)]
        dsimp only
        have h2 : scanFold g (ScanSt.mk [] [] [] true) [Tok.mk .NEWLINE "\n"] =
            .ok (ScanSt.mk [] [] [] false) := rfl
        rw [h2]
        constructor
        · intro hcontra; simp [varsContains] at hcontra
        · rintro ⟨t0', rest', heq, hnd, _, _⟩
          injection heq with e1 e2
          rw [← e1] at hnd
          rw [hnd] at hdis
          cases hdis
      · have hdisf : tokenDisallowed t0 = false := by
          rwa [Bool.not_eq_true] at hdis
        have h1 : scanStep g (ScanSt.mk [] [] [] false) t0 =
            .ok (ScanSt.mk [] [t0] [] false) := by
          have := scanStep_content g (ScanSt.mk [] [] [] false) t0 hct0 rfl
            (by simp [hdisf])
          simpa using this
        rw [List.cons_append, scanFold, h1]
        dsimp only
        rw [scanFold_append]
        rw [scanFold_content g rest (ScanSt.mk [] [t0] [] false) hrest rfl (by simp)]
        dsimp only
        simp only [List.singleton_append]
        by_cases hlsv : lineStartsWithVariableIdentifier (t0 :: rest) = true
        · obtain ⟨v, hv⟩ : ∃ v, g t0.str = some v := by
            cases hgv : g t0.str with
            | none => have := htotal t0.str; rw [hgv] at this; simp at this
            | some v => exact ⟨v, rfl⟩
          have hstep : scanStep g (ScanSt.mk [] (t0 :: rest) [] false)
              (Tok.mk .NEWLINE "\n") =
              .ok (ScanSt.mk
                [(t0.str, ConfigVariable.mk t0.str v [] [] (pyTypeName v))] [] [] false) := by
            unfold scanStep
            rw [if_neg (by simp)]
            rw [if_neg (by simp)]
            rw [if_pos (by decide)]
            dsimp only
            rw [if_pos (by simp [hc4])]
            rw [if_pos hlsv]
            rw [if_neg (by simp [varsContains])]
            rw [hv]
            dsimp only
            simp [varsAppendPre]
          rw [scanFold, hstep]
          dsimp only
          have hlast : scanFold g
              (ScanSt.mk [(t0.str, ConfigVariable.mk t0.str v [] [] (pyTypeName v))]
                [] [] false) [] =
              .ok (ScanSt.mk [(t0.str, ConfigVariable.mk t0.str v [] [] (pyTypeName v))]
                [] [] false) := rfl
          rw [hlast]
          dsimp only
          constructor
          · intro h
            simp only [varsContains, List.any_cons, List.any_nil, Bool.or_false] at h
            have : t0.str = n := by simpa using h
            exact ⟨t0, rest, rfl, hdisf, hlsv, this.symm⟩
          · rintro ⟨t0', rest', heq, _, _, hn⟩
            injection heq with e1 e2
            rw [← e1] at hn
            subst hn
            simp [varsContains]
        · have hlsvf : lineStartsWithVariableIdentifier (t0 :: rest) = false := by
            rwa [Bool.not_eq_true] at hlsv
          have hstep : scanStep g (ScanSt.mk [] (t0 :: rest) [] false)
              (Tok.mk .NEWLINE "\n") = .ok (ScanSt.mk [] [] [] false) := by
            unfold scanStep
            rw [if_neg (by simp)]
            rw [if_neg (by simp)]
            rw [if_pos (by decide)]
            dsimp only
            rw [if_pos (by simp [hc4])]
            rw [if_neg (by simp [hlsvf])]
          rw [scanFold, hstep]
          dsimp only
          have hlast : scanFold g (ScanSt.mk [] [] [] false) [] =
              .ok (ScanSt.mk [] [] [] false) := rfl
          rw [hlast]
          constructor
          · intro hcontra; simp [varsContains] at hcontra
          · rintro ⟨t0', rest', heq, _, hls, _⟩
            injection heq with e1 e2
            rw [hls] at hlsvf
            cases hlsvf

/-- C6 (witness): the amended recognition rule applied to the plain
assignment line `x = 1`: the scan registers `x`. -/
theorem c6_recognition_amended_witness :
    scanRegisters "x"
      ([Tok.mk .NAME "x", Tok.mk .OP "=", Tok.mk .NUMBER "1"] ++ [Tok.mk .NEWLINE "\n"])
      (fun _ => some (.int 1)) = true :=
  (c6_recognition_amended
      [Tok.mk .NAME "x", Tok.mk .OP "=", Tok.mk .NUMBER "1"]
      (fun _ => some (.int 1)) "x" (by decide) (fun _ => rfl)).mpr
    ⟨Tok.mk .NAME "x", [Tok.mk .OP "=", Tok.mk .NUMBER "1"], rfl, rfl, rfl, rfl⟩

/-! ## Claim C10 -/

/-- C10: because `isinstance` is used for declared-type matching and `bool`
is a subtype of `int`, a field declared as concrete `int` receiving a
serialized `bool` triggers no mismatch handling whatsoever — no cast, no
policy branch, no log — and the `bool` is returned unchanged, under every
policy; the same holds for the `loadCfg` assignment of a `bool` document
value against an `int` schema default. -/
theorem c10_bool_as_int_matching (b : Bool) (fieldName varName : String)
    (trace : List PyVal) (pol : BadTypeHandling) (noLog dS : Bool) :
    deserializeField fieldName (.prim .int) (.bool b) trace pol noLog dS =
      (.ok (.bool b), []) ∧
    loadCfgVar varName .int (.bool b) pol = (.ok (.bool b), []) := by
  constructor <;> rfl

/-! ## Claim C2 -/

/-- C2: the claim that field-level deserialization casts is contradicted by
the code: `_deserializeField` on a field declared `int` with serialized
value `"3"` under the default policy (`behaviour=CAST`,
`keepFailedCast=False`, `rejectType=RAISE`) raises a `TypeError` without
attempting the cast, because the `isinstance` guard in front of
`_handleTypeCasts` raises on every mismatch.  The module-level `loadCfg`
path behaves as the claim states: `"3"` casts to `3`, and `"abc"` raises
a `TypeError` carrying the cast exception. -/
theorem c2_cast_policy_field_vs_loadcfg :
    deserializeField "x" (.prim .int) (.str "3") [] {} false true =
      (.error (.typeError
        "Expected type of int for field x, but received serialized type str"), []) ∧
    loadCfgVar "x" .int (.str "3") {} = (.ok (.int 3), []) ∧
    loadCfgVar "x" .int (.str "abc") {} =
      (.error (.typeError
        ("Casting failed for unexpected type for config variable x: Expected int, " ++
          "received str. Cast exception: invalid literal for int() with base 10: abc")), []) := by
  refine ⟨rfl, rfl, rfl⟩

/-! ## Claim C3 -/

/-- C3: the Reject policy resolution diverges from the claim at every site
except `Raise`.  (a) `loadCfg` with `behaviour=REJECT, rejectType=RAISE`
raises the claimed `TypeError`; (b) with `rejectType=LOG` it records no
warning at all (the source compares `behaviour` — not `rejectType` —
against `ErrorHandling.LOG`, a cross-enum comparison that is always
false) while keeping the value; (c) `_handleTypeCasts` under
`REJECT`/`LOG` logs the message but returns `None` rather than the
serialized value, and (d) under `REJECT`/`IGNORE` silently returns
`None`; (e) the Union fallthrough of `_deserializeField` under
`REJECT`/`LOG` logs and then still raises the trailing `TypeError`, and
(f) under `REJECT`/`IGNORE` raises it silently. -/
theorem c3_reject_resolution_divergences :
    loadCfgVar "x" .int (.str "s") { behaviour := .reject, rejectType := .raise } =
      (.error (.typeError "Unexpected type for config variable x: Expected int, received str"),
        []) ∧
    loadCfgVar "x" .int (.str "s") { behaviour := .reject, rejectType := .log } =
      (.ok (.str "s"), []) ∧
    handleTypeCasts (.str "s") "x" [.int] { behaviour := .reject, rejectType := .log } false =
      (.ok PyVal.none, ["Expected one of int for field x, but received serialized type str"]) ∧
    handleTypeCasts (.str "s") "x" [.int] { behaviour := .reject, rejectType := .ignore } false =
      (.ok PyVal.none, []) ∧
    deserializeField "f" (.union [.prim .int]) (.str "s") []
        { behaviour := .reject, rejectType := .log } false true =
      (.error (.typeError "Field f is typed as a non-serializable type: typing.Union[...]"),
        ["Expected one of int for field f, but received serialized type str"]) ∧
    deserializeField "f" (.union [.prim .int]) (.str "s") []
        { behaviour := .reject, rejectType := .ignore } false true =
      (.error (.typeError "Field f is typed as a non-serializable type: typing.Union[...]"),
        []) := by
  refine ⟨rfl, rfl, rfl, rfl, rfl, rfl⟩

/-! ## Claim C7 -/

/-- C7: the claim that the scanner raises no exception is contradicted by
the inline-comment branch: a line recognized as a declaration whose name
lookup fails (the documented false-positive shape `key2 = value2)`)
is silently omitted when the line has no inline comment, but the same
line with an inline comment reaches the unguarded `getattr` of the
comment branch and lets the `AttributeError` escape. -/
theorem c7_inline_comment_attribute_error :
    scanTokens
      [Tok.mk .NAME "key2", Tok.mk .OP "=", Tok.mk .NAME "value2", Tok.mk .OP ")",
        Tok.mk .NL "\n"]
      (fun _ => Option.none) = .ok [] ∧
    scanTokens
      [Tok.mk .NAME "key2", Tok.mk .OP "=", Tok.mk .NAME "value2", Tok.mk .OP ")",
        Tok.mk .COMMENT "# comment", Tok.mk .NL "\n"]
      (fun _ => Option.none) = .error (.attributeError "key2") := by
  refine ⟨rfl, rfl⟩

end Carica
